import Mathlib

/-!
FAN5404x battery-charger driver.

A shallow embedding of `drivers/power/fan5404x-charger.c`: the register
transport (`__fan5404x_read`, `__fan5404x_write`, `fan5404x_masked_write`),
the three floor quantizers (`fan5404x_set_oreg`, `fan5404x_set_ibuslim`,
`fan5404x_set_iocharge`) and the charge controller (`start_charging`,
`stop_charging`).

Conventions of the embedding:

* a C `int` is an `Int`; a `uint8_t` is a `Nat` reduced `% 256` wherever the C
  code converts to `uint8_t`;
* a function that mutates `*chip` returns the new chip next to its return code;
* `mutex_lock` / `mutex_unlock` and the `dev_err` / `dev_dbg` logging have no
  effect on the sequential state and are left out.
-/

namespace Fan5404x

/-! ## Register map -/

/-- The `BIT(n)` helper of `linux/bitops.h`. -/
def BIT (n : Nat) : Nat := 1 <<< n

/-- The driver-local `GENMASK(u, l)`: `((1 << (u - l + 1)) - 1) << l`. -/
def GENMASK (u l : Nat) : Nat := ((1 <<< (u - l + 1)) - 1) <<< l

def REG_CONTROL0 : Nat := 0x00
def CONTROL0_TMR_RST : Nat := BIT 7
def CONTROL0_STAT : Nat := GENMASK 5 4
def CONTROL0_STAT_SHIFT : Nat := 4

def REG_CONTROL1 : Nat := 0x01
def CONTROL1_IBUSLIM : Nat := GENMASK 7 6
def CONTROL1_IBUSLIM_SHIFT : Nat := 6
def IBUSLIM_100MA : Nat := 0x00
def IBUSLIM_500MA : Nat := 0x01
def IBUSLIM_800MA : Nat := 0x02
def IBUSLIM_NO_LIMIT : Nat := 0x03
def CONTROL1_TE : Nat := BIT 3
def CONTROL1_CE_N : Nat := BIT 2

def REG_OREG : Nat := 0x02
def OREG_OREG : Nat := GENMASK 7 2
def OREG_OREG_SHIFT : Nat := 2

def REG_IBAT : Nat := 0x04
def IBAT_RESET : Nat := BIT 7
def IBAT_IOCHARGE : Nat := GENMASK 6 3
def IBAT_IOCHARGE_SHIFT : Nat := 3

def REG_VBUS_CONTROL : Nat := 0x05
def VBUS_IO_LEVEL : Nat := BIT 5

def REG_WD_CONTROL : Nat := 0x13
def WD_CONTROL_WD_DIS : Nat := BIT 1

/-- The errno `EINVAL` of `linux/errno.h`. -/
def EINVAL : Int := 22

/-- The largest value of a 32-bit C `int`. -/
def INT_MAX : Int := 2147483647

/-! ## The I2C bus and the device handle -/

/-- One single-byte bus transfer, as it appears on the wire. -/
inductive BusOp where
  | read (reg : Nat)
  | write (reg : Nat) (val : Nat)
deriving DecidableEq, Repr

/-- The bus endpoint `struct i2c_client`, seen from the driver: the chip
registers as plain byte storage, the scripted results of the transfers still
to come (a negative entry makes the next transfer fail with that errno, any
other entry or an exhausted script lets it succeed), and the transfers issued
so far, newest first. -/
structure i2c_client where
  regs : Nat → Nat
  outcomes : List Int
  log : List BusOp

/-- The result scripted for the next transfer: the head of the script, or 0
(success) once the script is exhausted. -/
def nextOutcome : List Int → Int
  | [] => 0
  | e :: _ => e

/-- Modelled from the spec: `i2c_smbus_read_byte_data` of the kernel I2C core,
which is not part of the driver file; a single-byte transactional read that
yields the addressed byte or a negative bus error. -/
def i2c_smbus_read_byte_data (c : i2c_client) (reg : Nat) : Int × i2c_client :=
  let c1 : i2c_client :=
    { regs := c.regs, outcomes := c.outcomes.tail, log := BusOp.read reg :: c.log }
  if nextOutcome c.outcomes < 0 then (nextOutcome c.outcomes, c1)
  else (((c.regs reg % 256 : Nat) : Int), c1)

/-- Modelled from the spec: `i2c_smbus_write_byte_data` of the kernel I2C core,
which is not part of the driver file; a single-byte transactional write that
stores the byte and yields 0, or stores nothing and yields a negative bus
error. -/
def i2c_smbus_write_byte_data (c : i2c_client) (reg : Nat) (val : Nat) :
    Int × i2c_client :=
  if nextOutcome c.outcomes < 0 then
    (nextOutcome c.outcomes,
      { regs := c.regs, outcomes := c.outcomes.tail,
        log := BusOp.write reg (val % 256) :: c.log })
  else
    (0,
      { regs := fun r => if r = reg then val % 256 else c.regs r,
        outcomes := c.outcomes.tail,
        log := BusOp.write reg (val % 256) :: c.log })

/-- The upstream power source `usb_psy`, reduced to what `start_charging` asks
of it: the return code and the `intval` of `get_property(CURRENT_MAX)`. -/
structure power_supply where
  current_max_rc : Int
  current_max : Int

/-- The device handle `struct fan5404x_chg`. -/
structure fan5404x_chg where
  client : i2c_client
  usb_psy : power_supply
  fake_battery_soc : Int
  factory_mode : Bool
  chg_enabled : Bool
  usb_present : Bool
  batt_present : Bool
  chg_done_batt_full : Bool
  charging : Bool
  batt_hot : Bool
  batt_cold : Bool
  batt_warm : Bool
  batt_cool : Bool
  peek_poke_address : Nat := 0

/-- The handle with another bus endpoint; every other field is kept. -/
def fan5404x_chg.withClient (chip : fan5404x_chg) (c : i2c_client) : fan5404x_chg :=
  { chip with client := c }

/-! ## Transport -/

/-- The function `__fan5404x_read`: `val` is the out-parameter, returned unchanged when the
transfer fails. -/
def __fan5404x_read (chip : fan5404x_chg) (reg : Nat) (val : Nat) :
    Int × Nat × fan5404x_chg :=
  let r := i2c_smbus_read_byte_data chip.client reg
  if r.1 < 0 then (r.1, val, chip.withClient r.2)
  else (0, r.1.toNat % 256, chip.withClient r.2)

/-- The function `__fan5404x_write`: a no-op reporting success in factory mode. -/
def __fan5404x_write (chip : fan5404x_chg) (reg : Nat) (val : Nat) :
    Int × fan5404x_chg :=
  if chip.factory_mode then (0, chip)
  else
    let r := i2c_smbus_write_byte_data chip.client reg val
    if r.1 < 0 then (r.1, chip.withClient r.2)
    else (0, chip.withClient r.2)

/-- The function `fan5404x_masked_write`. `mask` and `val` are `uint8_t` parameters, `temp`
is a `uint8_t` local (indeterminate before the read, here 0), so `temp &= ~mask`
keeps the low eight bits of `temp & ~mask`, which is `temp & (255 ^ mask)`. -/
def fan5404x_masked_write (chip : fan5404x_chg) (reg : Nat) (mask : Nat) (val : Nat) :
    Int × fan5404x_chg :=
  let r := __fan5404x_read chip reg 0
  if r.1 < 0 then (r.1, r.2.2)
  else
    let temp := r.2.1 &&& (255 ^^^ (mask % 256))
    let temp := temp ||| ((val % 256) &&& (mask % 256))
    __fan5404x_write r.2.2 reg temp

/-! ## Threshold tables -/

/-- The loop shared by the three quantizers,
`for (i = top; i >= 0; i--) if (value >= tbl(i)) break;`,
entered with counter `i`; the result is the value of `i` after the loop,
`-1` when no entry was accepted. -/
def scan_down (tbl : Nat → Int) (value : Int) : Nat → Int
  | 0 => if value ≥ tbl 0 then 0 else -1
  | i + 1 => if value ≥ tbl (i + 1) then ((i + 1 : Nat) : Int) else scan_down tbl value i

def OREG_MIN : Int := 3500
def OREG_STEP_MV : Int := 20
def OREG_STEPS : Nat := 48

/-- The C definition `OREG_VALUE(s)`. -/
def OREG_VALUE (s : Nat) : Int := OREG_MIN + s * OREG_STEP_MV

/-- The function `fan5404x_set_oreg`. -/
def fan5404x_set_oreg (chip : fan5404x_chg) (value : Int) : Int × fan5404x_chg :=
  let i := scan_down OREG_VALUE value OREG_STEPS
  if i < 0 then (-EINVAL, chip)
  else
    let r := fan5404x_masked_write chip REG_OREG OREG_OREG (i.toNat <<< OREG_OREG_SHIFT)
    if r.1 ≠ 0 then (r.1, r.2) else (0, r.2)

/-- A C array initializer made of designated entries `[index] = value` only:
the array is as long as the largest index requires, and a later entry for an
index replaces an earlier one. -/
def designated_init (inits : List (Nat × Int)) : List Int :=
  inits.foldl
    (fun arr p => (arr ++ List.replicate (p.1 + 1 - arr.length) 0).set p.1 p.2) []

/-- The table `ibuslim_vals`, with its initializer as written in the driver. -/
def ibuslim_vals : List Int :=
  designated_init
    [(IBUSLIM_100MA, 100), (IBUSLIM_500MA, 500), (IBUSLIM_800MA, 800),
     (IBUSLIM_100MA, INT_MAX)]

/-- The function `fan5404x_set_ibuslim`; `ARRAY_SIZE(ibuslim_vals)` is the length of the table. -/
def fan5404x_set_ibuslim (chip : fan5404x_chg) (limit : Int) : Int × fan5404x_chg :=
  let i := scan_down (fun k => ibuslim_vals.getD k 0) limit (ibuslim_vals.length - 1)
  if i < 0 then (-EINVAL, chip)
  else
    let r := fan5404x_masked_write chip REG_CONTROL1 CONTROL1_IBUSLIM
      (i.toNat <<< CONTROL1_IBUSLIM_SHIFT)
    if r.1 ≠ 0 then (r.1, r.2) else (0, r.2)

def IBAT_IOCHARGE_MIN : Int := 550
def IBAT_IOCHARGE_STEP_MA : Int := 100
def IBAT_IOCHARGE_STEPS : Nat := 11

/-- The C definition `IBAT_STEP_CURRENT(s)`. -/
def IBAT_STEP_CURRENT (s : Nat) : Int := IBAT_IOCHARGE_MIN + s * IBAT_IOCHARGE_STEP_MA

/-- The function `fan5404x_set_iocharge`. -/
def fan5404x_set_iocharge (chip : fan5404x_chg) (limit : Int) : Int × fan5404x_chg :=
  let i := scan_down IBAT_STEP_CURRENT limit IBAT_IOCHARGE_STEPS
  if i < 0 then (-EINVAL, chip)
  else
    let r := fan5404x_masked_write chip REG_IBAT (IBAT_IOCHARGE ||| IBAT_RESET)
      (i.toNat <<< IBAT_IOCHARGE_SHIFT)
    if r.1 ≠ 0 then (r.1, r.2) else (0, r.2)

/-! ## Charge controller -/

/-- The function `start_charging`. -/
def start_charging (chip : fan5404x_chg) : Int × fan5404x_chg :=
  let r1 := fan5404x_masked_write chip REG_CONTROL0 CONTROL0_TMR_RST CONTROL0_TMR_RST
  if r1.1 ≠ 0 then (r1.1, r1.2)
  else if r1.2.usb_psy.current_max_rc < 0 then (r1.2.usb_psy.current_max_rc, r1.2)
  else
    let current_limit := Int.tdiv r1.2.usb_psy.current_max 1000
    let r2 := fan5404x_set_ibuslim r1.2 current_limit
    if r2.1 ≠ 0 then (r2.1, r2.2)
    else
      let r3 := fan5404x_set_iocharge r2.2 1550
      if r3.1 ≠ 0 then (r3.1, r3.2)
      else
        let r4 := fan5404x_masked_write r3.2 REG_VBUS_CONTROL VBUS_IO_LEVEL 0
        if r4.1 ≠ 0 then (r4.1, r4.2)
        else
          let r5 := fan5404x_set_oreg r4.2 4350
          if r5.1 ≠ 0 then (r5.1, r5.2)
          else
            let r6 := fan5404x_masked_write r5.2 REG_WD_CONTROL WD_CONTROL_WD_DIS
              WD_CONTROL_WD_DIS
            if r6.1 ≠ 0 then (r6.1, r6.2)
            else
              let r7 := fan5404x_masked_write r6.2 REG_CONTROL1
                (CONTROL1_TE ||| CONTROL1_CE_N) 0
              if r7.1 ≠ 0 then (r7.1, r7.2)
              else (0, { r7.2 with charging := true })

/-- The function `stop_charging`. -/
def stop_charging (chip : fan5404x_chg) : Int × fan5404x_chg :=
  let r := fan5404x_masked_write chip REG_CONTROL1 (CONTROL1_CE_N ||| CONTROL1_CE_N)
    CONTROL1_CE_N
  if r.1 ≠ 0 then (r.1, r.2) else (0, { r.2 with charging := false })

/-! ## The steps of `start_charging` -/

/-- Step `k` (counted from 0) of `start_charging`, run from the state `chip`
that the steps before it have left: the `TMR_RST` write, the upstream
`CURRENT_MAX` query, the three quantized limits with the `IO_LEVEL` write
between them, the watchdog write and the `TE` / `CE_N` write. -/
def start_step (chip : fan5404x_chg) : Nat → Int × fan5404x_chg
  | 0 => fan5404x_masked_write chip REG_CONTROL0 CONTROL0_TMR_RST CONTROL0_TMR_RST
  | 1 => (chip.usb_psy.current_max_rc, chip)
  | 2 => fan5404x_set_ibuslim chip (Int.tdiv chip.usb_psy.current_max 1000)
  | 3 => fan5404x_set_iocharge chip 1550
  | 4 => fan5404x_masked_write chip REG_VBUS_CONTROL VBUS_IO_LEVEL 0
  | 5 => fan5404x_set_oreg chip 4350
  | 6 => fan5404x_masked_write chip REG_WD_CONTROL WD_CONTROL_WD_DIS WD_CONTROL_WD_DIS
  | 7 => fan5404x_masked_write chip REG_CONTROL1 (CONTROL1_TE ||| CONTROL1_CE_N) 0
  | _ => (0, chip)

/-- Whether the return code `rc` of step `k` makes `start_charging` return:
the upstream query is tested with `rc < 0`, every other step with `rc != 0`. -/
def step_failed : Nat → Int → Prop
  | 0, rc => rc ≠ 0
  | 1, rc => rc < 0
  | _ + 2, rc => rc ≠ 0

instance step_failed_decidable : (k : Nat) → (rc : Int) → Decidable (step_failed k rc)
  | 0, rc => inferInstanceAs (Decidable (rc ≠ 0))
  | 1, rc => inferInstanceAs (Decidable (rc < 0))
  | _ + 2, rc => inferInstanceAs (Decidable (rc ≠ 0))

/-- The state in which step `k` of `start_charging` runs when the steps before
it have all been run: the device handle threaded through steps `0 .. k-1`. -/
def start_state (chip : fan5404x_chg) : Nat → fan5404x_chg
  | 0 => chip
  | k + 1 => (start_step (start_state chip k) k).2

/-- The rest of `start_charging` from step `k` on, with `n` steps left to run
in state `chip`: the result of the first failing step is returned as it is, and
after the last step the flag `charging` is set and 0 returned. -/
def start_from (chip : fan5404x_chg) (k : Nat) : Nat → Int × fan5404x_chg
  | 0 => (0, { chip with charging := true })
  | n + 1 =>
    if step_failed k (start_step chip k).1 then start_step chip k
    else start_from (start_step chip k).2 (k + 1) n

/-- The byte that a masked write stores: `(cur & ~mask) | (val & mask)` on
eight bits. -/
def merge_byte (cur mask val : Nat) : Nat :=
  ((cur % 256) &&& (255 ^^^ (mask % 256))) ||| ((val % 256) &&& (mask % 256))

/-- The register file after a masked write that reached the chip. -/
def merge_reg (regs : Nat → Nat) (reg mask val : Nat) : Nat → Nat :=
  fun r => if r = reg then merge_byte (regs reg) mask val else regs r

/-- The register file that a `start_charging` whose writes all reach the chip
leaves behind, `code` being the input-current code: the seven masked writes in
program order. -/
def start_regs (code : Nat) (regs : Nat → Nat) : Nat → Nat :=
  merge_reg
    (merge_reg
      (merge_reg
        (merge_reg
          (merge_reg
            (merge_reg
              (merge_reg regs REG_CONTROL0 CONTROL0_TMR_RST CONTROL0_TMR_RST)
              REG_CONTROL1 CONTROL1_IBUSLIM (code <<< CONTROL1_IBUSLIM_SHIFT))
            REG_IBAT (IBAT_IOCHARGE ||| IBAT_RESET) (10 <<< IBAT_IOCHARGE_SHIFT))
          REG_VBUS_CONTROL VBUS_IO_LEVEL 0)
        REG_OREG OREG_OREG (42 <<< OREG_OREG_SHIFT))
      REG_WD_CONTROL WD_CONTROL_WD_DIS WD_CONTROL_WD_DIS)
    REG_CONTROL1 (CONTROL1_TE ||| CONTROL1_CE_N) 0

/-! ## More of the register map -/

def STAT_READY : Int := 0x00
def STAT_PWM_ENABLED : Int := 0x01
def STAT_CHARGE_DONE : Int := 0x02
def STAT_FAULT : Int := 0x03

def CONTROL1_IBUSLIM_SHIFT_MASK : Nat := 0x03

def REG_IC_INFO : Nat := 0x03
def IC_INFO_VENDOR_CODE : Nat := GENMASK 7 6
def VENDOR_FAIRCHILD_VAL : Nat := 0x80

def REG_MONITOR0 : Nat := 0x10
def MONITOR0_LINCHG : Nat := BIT 5

/-- The errno `EAGAIN` of `linux/errno.h`. -/
def EAGAIN : Int := 11

/-- The errno `ENOMEM` of `linux/errno.h`. -/
def ENOMEM : Int := 12

/-- The errno `EFAULT` of `linux/errno.h`. -/
def EFAULT : Int := 14

/-- The errno `ENODEV` of `linux/errno.h`. -/
def ENODEV : Int := 19

/-- The errno `EPROBE_DEFER` of `linux/errno.h`. -/
def EPROBE_DEFER : Int := 517

/-! ## Diagnostic transport -/

/-- The function `fan5404x_read`: `__fan5404x_read` between `mutex_lock` and
`mutex_unlock`. -/
def fan5404x_read (chip : fan5404x_chg) (reg : Nat) (val : Nat) :
    Int × Nat × fan5404x_chg :=
  __fan5404x_read chip reg val

/-- The function `__fan5404x_write_fac`: the bus write without the factory-mode
test. -/
def __fan5404x_write_fac (chip : fan5404x_chg) (reg : Nat) (val : Nat) :
    Int × fan5404x_chg :=
  let r := i2c_smbus_write_byte_data chip.client reg val
  if r.1 < 0 then (r.1, chip.withClient r.2)
  else (0, chip.withClient r.2)

/-- The function `fan5404x_masked_write_fac`, with `temp` as in
`fan5404x_masked_write`. -/
def fan5404x_masked_write_fac (chip : fan5404x_chg) (reg : Nat) (mask : Nat) (val : Nat) :
    Int × fan5404x_chg :=
  let r := __fan5404x_read chip reg 0
  if r.1 < 0 then (r.1, r.2.2)
  else
    let temp := r.2.1 &&& (255 ^^^ (mask % 256))
    let temp := temp ||| ((val % 256) &&& (mask % 256))
    __fan5404x_write_fac r.2.2 reg temp

/-- The debugfs poke `set_reg`, for a registered `the_chip`: `val` is the `u64`
written by the user, `temp = (u8) val` the byte sent to `peek_poke_address`. -/
def set_reg (chip : fan5404x_chg) (val : Nat) : Int × fan5404x_chg :=
  let temp := val % 256
  let r := __fan5404x_write_fac chip chip.peek_poke_address temp
  if r.1 < 0 then (-EAGAIN, r.2) else (0, r.2)

/-- The readback `force_chg_iusb_show`, for a registered `the_chip`: the value
of `state` that is printed. The array read `ibuslim_vals[value]` is `none` when
`value` is not an index of the table, where the C read is out of bounds. -/
def force_chg_iusb_show (chip : fan5404x_chg) : Option Int × fan5404x_chg :=
  let r := fan5404x_read chip REG_CONTROL1 0
  if r.1 ≠ 0 then (some (-EFAULT), r.2.2)
  else
    let value := (r.2.1 >>> CONTROL1_IBUSLIM_SHIFT) % 256
    let value := value &&& CONTROL1_IBUSLIM_SHIFT_MASK
    (ibuslim_vals.get? value, r.2.2)

/-! ## State decoder -/

/-- Modelled from the spec: the battery status values of `linux/power_supply.h`,
which is not part of the driver file. -/
inductive power_supply_status where
  | POWER_SUPPLY_STATUS_UNKNOWN
  | POWER_SUPPLY_STATUS_CHARGING
  | POWER_SUPPLY_STATUS_DISCHARGING
  | POWER_SUPPLY_STATUS_NOT_CHARGING
  | POWER_SUPPLY_STATUS_FULL
deriving DecidableEq, Repr

/-- Modelled from the spec: the charge type values of `linux/power_supply.h`,
which is not part of the driver file. -/
inductive power_supply_charge_type where
  | POWER_SUPPLY_CHARGE_TYPE_UNKNOWN
  | POWER_SUPPLY_CHARGE_TYPE_NONE
  | POWER_SUPPLY_CHARGE_TYPE_TRICKLE
  | POWER_SUPPLY_CHARGE_TYPE_FAST
deriving DecidableEq, Repr

/-- Modelled from the spec: the battery health values of `linux/power_supply.h`,
which is not part of the driver file. -/
inductive power_supply_health where
  | POWER_SUPPLY_HEALTH_UNKNOWN
  | POWER_SUPPLY_HEALTH_GOOD
  | POWER_SUPPLY_HEALTH_OVERHEAT
  | POWER_SUPPLY_HEALTH_DEAD
  | POWER_SUPPLY_HEALTH_OVERVOLTAGE
  | POWER_SUPPLY_HEALTH_UNSPEC_FAILURE
  | POWER_SUPPLY_HEALTH_COLD
  | POWER_SUPPLY_HEALTH_WARM
  | POWER_SUPPLY_HEALTH_COOL
deriving DecidableEq, Repr

open power_supply_status power_supply_charge_type power_supply_health

/-- The function `fan5404x_stat_read`: a negative error, or the two status
bits of `CONTROL0`. -/
def fan5404x_stat_read (chip : fan5404x_chg) : Int × fan5404x_chg :=
  let r := fan5404x_read chip REG_CONTROL0 0
  if r.1 < 0 then (r.1, r.2.2)
  else ((((r.2.1 &&& CONTROL0_STAT) >>> CONTROL0_STAT_SHIFT : Nat) : Int), r.2.2)

/-- The function `fan5404x_get_prop_batt_status`. -/
def fan5404x_get_prop_batt_status (chip : fan5404x_chg) :
    power_supply_status × fan5404x_chg :=
  let s := fan5404x_stat_read chip
  if s.1 < 0 then (POWER_SUPPLY_STATUS_UNKNOWN, s.2)
  else if s.1 = STAT_CHARGE_DONE then (POWER_SUPPLY_STATUS_FULL, s.2)
  else
    let r := fan5404x_read s.2 REG_CONTROL1 0
    if r.1 < 0 then (POWER_SUPPLY_STATUS_UNKNOWN, r.2.2)
    else if s.1 = STAT_PWM_ENABLED ∧ r.2.1 &&& CONTROL1_CE_N = 0 then
      (POWER_SUPPLY_STATUS_CHARGING, r.2.2)
    else (POWER_SUPPLY_STATUS_DISCHARGING, r.2.2)

/-- The function `fan5404x_get_prop_charge_type`. -/
def fan5404x_get_prop_charge_type (chip : fan5404x_chg) :
    power_supply_charge_type × fan5404x_chg :=
  let s := fan5404x_stat_read chip
  if s.1 < 0 then (POWER_SUPPLY_CHARGE_TYPE_UNKNOWN, s.2)
  else
    let m := fan5404x_read s.2 REG_MONITOR0 0
    if m.1 < 0 then (POWER_SUPPLY_CHARGE_TYPE_TRICKLE, m.2.2)
    else if m.2.1 &&& MONITOR0_LINCHG ≠ 0 then (POWER_SUPPLY_CHARGE_TYPE_TRICKLE, m.2.2)
    else
      let r := fan5404x_read m.2.2 REG_CONTROL1 0
      if r.1 < 0 then (POWER_SUPPLY_CHARGE_TYPE_UNKNOWN, r.2.2)
      else if s.1 = STAT_PWM_ENABLED ∧ r.2.1 &&& CONTROL1_CE_N = 0 then
        (POWER_SUPPLY_CHARGE_TYPE_FAST, r.2.2)
      else (POWER_SUPPLY_CHARGE_TYPE_NONE, r.2.2)

/-- The function `fan5404x_get_prop_batt_health`. -/
def fan5404x_get_prop_batt_health (chip : fan5404x_chg) : power_supply_health :=
  if chip.batt_hot then POWER_SUPPLY_HEALTH_OVERHEAT
  else if chip.batt_cold then POWER_SUPPLY_HEALTH_COLD
  else if chip.batt_warm then POWER_SUPPLY_HEALTH_WARM
  else if chip.batt_cool then POWER_SUPPLY_HEALTH_COOL
  else POWER_SUPPLY_HEALTH_GOOD

/-- The function `fan5404x_set_prop_batt_health`. -/
def fan5404x_set_prop_batt_health (chip : fan5404x_chg) (health : power_supply_health) :
    Int × fan5404x_chg :=
  match health with
  | POWER_SUPPLY_HEALTH_OVERHEAT =>
    (0, { chip with batt_hot := true, batt_cold := false, batt_warm := false,
                    batt_cool := false })
  | POWER_SUPPLY_HEALTH_COLD =>
    (0, { chip with batt_cold := true, batt_hot := false, batt_warm := false,
                    batt_cool := false })
  | POWER_SUPPLY_HEALTH_WARM =>
    (0, { chip with batt_warm := true, batt_hot := false, batt_cold := false,
                    batt_cool := false })
  | POWER_SUPPLY_HEALTH_COOL =>
    (0, { chip with batt_cool := true, batt_hot := false, batt_cold := false,
                    batt_warm := false })
  | _ =>
    (0, { chip with batt_hot := false, batt_cold := false, batt_warm := false,
                    batt_cool := false })

/-- The battery status as the specification decodes it from the two bytes:
`fail0` and `fail1` say whether the `CONTROL0` and the `CONTROL1` read fail,
`c0` and `c1` are the bytes; bits 5:4 of `c0` are `c0 / 16 % 4`, bit 2 of `c1`
is `c1 / 4 % 2`. -/
def batt_status_reference (fail0 : Bool) (c0 : Nat) (fail1 : Bool) (c1 : Nat) :
    power_supply_status :=
  if fail0 then POWER_SUPPLY_STATUS_UNKNOWN
  else if c0 / 16 % 4 = 2 then POWER_SUPPLY_STATUS_FULL
  else if fail1 then POWER_SUPPLY_STATUS_UNKNOWN
  else if c0 / 16 % 4 = 1 ∧ c1 / 4 % 2 = 0 then POWER_SUPPLY_STATUS_CHARGING
  else POWER_SUPPLY_STATUS_DISCHARGING

/-! ## Chip identification and probe -/

/-- The function `fan5404x_read_chip_id`; `val` is the out-parameter. -/
def fan5404x_read_chip_id (chip : fan5404x_chg) (val : Nat) : Int × Nat × fan5404x_chg :=
  let r := fan5404x_read chip REG_IC_INFO val
  if r.1 ≠ 0 then (r.1, r.2.1, r.2.2)
  else if r.2.1 &&& IC_INFO_VENDOR_CODE ≠ VENDOR_FAIRCHILD_VAL then (-EINVAL, r.2.1, r.2.2)
  else (0, r.2.1, r.2.2)

/-- The handle that `fan5404x_charger_probe` sets up before it identifies the
chip: zeroed by `devm_kzalloc`, then given the client, the upstream supply and
`fake_battery_soc = -EINVAL`. -/
def probe_chip (client : i2c_client) (usb_psy : power_supply) : fan5404x_chg :=
  { client := client
    usb_psy := usb_psy
    fake_battery_soc := -EINVAL
    factory_mode := false
    chg_enabled := false
    usb_present := false
    batt_present := false
    chg_done_batt_full := false
    charging := false
    batt_hot := false
    batt_cold := false
    batt_warm := false
    batt_cool := false }

/-- The function `fan5404x_charger_probe` up to the chip identification. The
result is the return code with the list of what has been registered with the
kernel. `usb_psy` is what `power_supply_get_by_name("usb")` finds, `alloc_ok`
whether `devm_kzalloc` succeeds, and `rest` is the probe from
`i2c_set_clientdata` on (power-supply registration, interrupt, debugfs, sysfs
files, reboot notifier, heartbeat), taken as a parameter. -/
def fan5404x_charger_probe {α : Type} (client : i2c_client) (usb_psy : Option power_supply)
    (alloc_ok : Bool) (rest : fan5404x_chg → Int × List α) : Int × List α :=
  match usb_psy with
  | none => (-EPROBE_DEFER, [])
  | some psy =>
    if !alloc_ok then (-ENOMEM, [])
    else
      let r := fan5404x_read_chip_id (probe_chip client psy) 0
      if r.1 ≠ 0 then (-ENODEV, [])
      else rest r.2.2

/-! ## Lock discipline -/

/-- What a register access does with `read_write_lock` and the bus, in program
order. -/
inductive LockEvent where
  | mutex_lock
  | mutex_unlock
  | transfer (op : BusOp)
deriving DecidableEq, Repr

/-- The events of `__fan5404x_read`: one bus read, no lock operation. -/
def __fan5404x_read_events (reg : Nat) : List LockEvent :=
  [LockEvent.transfer (BusOp.read reg)]

/-- The events of `__fan5404x_write`: one bus write outside factory mode, no
lock operation. -/
def __fan5404x_write_events (chip : fan5404x_chg) (reg : Nat) (val : Nat) :
    List LockEvent :=
  if chip.factory_mode then [] else [LockEvent.transfer (BusOp.write reg (val % 256))]

/-- The events of `__fan5404x_write_fac`: one bus write, no lock operation. -/
def __fan5404x_write_fac_events (reg : Nat) (val : Nat) : List LockEvent :=
  [LockEvent.transfer (BusOp.write reg (val % 256))]

/-- The events of `fan5404x_read`. -/
def fan5404x_read_events (reg : Nat) : List LockEvent :=
  [LockEvent.mutex_lock] ++ __fan5404x_read_events reg ++ [LockEvent.mutex_unlock]

/-- The events of `fan5404x_masked_write`; the read-failure path jumps to the
`out:` label, where the unlock is. -/
def fan5404x_masked_write_events (chip : fan5404x_chg) (reg : Nat) (mask : Nat)
    (val : Nat) : List LockEvent :=
  let r := __fan5404x_read chip reg 0
  [LockEvent.mutex_lock] ++ __fan5404x_read_events reg ++
    (if r.1 < 0 then []
     else
      __fan5404x_write_events r.2.2 reg
        ((r.2.1 &&& (255 ^^^ (mask % 256))) ||| ((val % 256) &&& (mask % 256)))) ++
    [LockEvent.mutex_unlock]

/-- The events of `fan5404x_masked_write_fac`. -/
def fan5404x_masked_write_fac_events (chip : fan5404x_chg) (reg : Nat) (mask : Nat)
    (val : Nat) : List LockEvent :=
  let r := __fan5404x_read chip reg 0
  [LockEvent.mutex_lock] ++ __fan5404x_read_events reg ++
    (if r.1 < 0 then []
     else
      __fan5404x_write_fac_events reg
        ((r.2.1 &&& (255 ^^^ (mask % 256))) ||| ((val % 256) &&& (mask % 256)))) ++
    [LockEvent.mutex_unlock]

/-- The events of `set_reg`: the call of `__fan5404x_write_fac`, with no lock
operation around it. -/
def set_reg_events (chip : fan5404x_chg) (val : Nat) : List LockEvent :=
  __fan5404x_write_fac_events chip.peek_poke_address (val % 256)

/-- Running a list of events from the lock state `held`: the lock state at the
end when every transfer was made with the lock held, every lock taken while
free and every unlock done while held; `none` otherwise. -/
def lock_run : Bool → List LockEvent → Option Bool
  | held, [] => some held
  | held, LockEvent.mutex_lock :: es => if held then none else lock_run true es
  | held, LockEvent.mutex_unlock :: es => if held then lock_run false es else none
  | held, LockEvent.transfer _ :: es => if held then lock_run true es else none

/-- The bus transfers among the events, in program order. -/
def bus_transfers : List LockEvent → List BusOp
  | [] => []
  | LockEvent.transfer op :: es => op :: bus_transfers es
  | _ :: es => bus_transfers es

/-! ## Event dispatcher -/

def CONTROL0_FAULT : Nat := GENMASK 2 0
def CONTROL0_FAULT_SHIFT : Nat := 0
def VBUS_VBUS_CON : Nat := BIT 4

/-- The function `fan5404x_fault_read`: a negative error, or the three fault
bits of `CONTROL0`. -/
def fan5404x_fault_read (chip : fan5404x_chg) : Int × fan5404x_chg :=
  let r := fan5404x_read chip REG_CONTROL0 0
  if r.1 < 0 then (r.1, r.2.2)
  else ((((r.2.1 &&& CONTROL0_FAULT) >>> CONTROL0_FAULT_SHIFT : Nat) : Int), r.2.2)

/-- What the interrupt handler calls besides its register reads, in program
order: the two `power_supply_changed` notifications and `start_charging`. -/
inductive irq_action where
  | power_supply_changed_usb_psy
  | call_start_charging
  | power_supply_changed_batt_psy
deriving DecidableEq, Repr

/-- The interrupt handler `fan5404x_chg_stat_handler`, for a handle whose
`usb_psy` is not null (probe sets it): the handle it leaves and the calls it
has made. It always returns `IRQ_HANDLED`; the return code of `start_charging`
is dropped, as in the driver. -/
def fan5404x_chg_stat_handler (chip : fan5404x_chg) : fan5404x_chg × List irq_action :=
  let p : fan5404x_chg × List irq_action :=
    if chip.factory_mode then
      let r := fan5404x_read chip REG_VBUS_CONTROL 0
      if r.1 < 0 then (r.2.2, [])
      else if r.2.1 &&& VBUS_VBUS_CON = 0 then
        (r.2.2, [irq_action.power_supply_changed_usb_psy])
      else (r.2.2, [])
    else (chip, [])
  let s := fan5404x_stat_read p.1
  let f := fan5404x_fault_read s.2
  if f.2.charging = true ∧ s.1 = STAT_PWM_ENABLED then
    ((start_charging f.2).2,
      p.2 ++ [irq_action.call_start_charging, irq_action.power_supply_changed_batt_psy])
  else (f.2, p.2 ++ [irq_action.power_supply_changed_batt_psy])

/-- The bus script that is left when the handler reads the status: in factory
mode the `VBUS_CONTROL` read has taken the first entry. -/
def stat_handler_script (chip : fan5404x_chg) : List Int :=
  if chip.factory_mode then chip.client.outcomes.tail else chip.client.outcomes

/-- The handle after the register reads of the handler (in factory mode
`VBUS_CONTROL`, then `CONTROL0` for the status and `CONTROL0` for the fault):
the registers are untouched, the bus log has grown by these reads. -/
def stat_handler_after_reads (chip : fan5404x_chg) : fan5404x_chg :=
  chip.withClient
    { regs := chip.client.regs
      outcomes := (stat_handler_script chip).tail.tail
      log := BusOp.read REG_CONTROL0 :: BusOp.read REG_CONTROL0 ::
        ((if chip.factory_mode then [BusOp.read REG_VBUS_CONTROL] else []) ++
          chip.client.log) }

/-! ## Sample states -/

/-- A bus endpoint with no scripted fault, whose `CONTROL0` reads `0x2D` and
whose other registers read `0xAD`. -/
def sampleClient : i2c_client :=
  { regs := fun r => if r = REG_CONTROL0 then 0x2D else 0xAD, outcomes := [], log := [] }

/-- A stopped device outside factory mode, fed by a 600 mA upstream source. -/
def sampleChip : fan5404x_chg :=
  { client := sampleClient
    usb_psy := { current_max_rc := 0, current_max := 600000 }
    fake_battery_soc := -1
    factory_mode := false
    chg_enabled := false
    usb_present := false
    batt_present := false
    chg_done_batt_full := false
    charging := false
    batt_hot := false
    batt_cold := false
    batt_warm := false
    batt_cool := false }

/-- The sample device on a bus whose next transfer fails with errno 5 (`EIO`). -/
def faultyChip : fan5404x_chg :=
  sampleChip.withClient
    { regs := sampleClient.regs, outcomes := [-5], log := [] }

/-- The sample device fed by a 100 mA upstream source. -/
def lowChip : fan5404x_chg :=
  { sampleChip with usb_psy := { current_max_rc := 0, current_max := 100000 } }

/-- The sample device with the register file `regs` and the bus script
`outcomes`. -/
def chipWith (regs : Nat → Nat) (outcomes : List Int) : fan5404x_chg :=
  sampleChip.withClient { regs := regs, outcomes := outcomes, log := [] }

/-- A register file of a charging chip: `CONTROL0` reads `0x10` (status
`0b01`), every other register reads 0. -/
def chargingRegs : Nat → Nat :=
  fun r => if r = REG_CONTROL0 then 0x10 else 0

/-- The sample device in factory mode. -/
def factoryChip : fan5404x_chg :=
  { sampleChip with factory_mode := true }

/-- A charging device outside factory mode whose chip reports status `0b01`. -/
def pwmChip : fan5404x_chg :=
  { chipWith chargingRegs [] with charging := true }

/-! ## Transport lemmas -/

theorem byte_lt (cur mask val : Nat) :
    ((cur % 256) &&& (255 ^^^ (mask % 256))) ||| ((val % 256) &&& (mask % 256)) < 256 := by
  have h1 : (cur % 256) &&& (255 ^^^ (mask % 256)) < 2 ^ 8 :=
    lt_of_le_of_lt Nat.and_le_left (Nat.mod_lt _ (by norm_num))
  have h2 : (val % 256) &&& (mask % 256) < 2 ^ 8 :=
    lt_of_le_of_lt Nat.and_le_left (Nat.mod_lt _ (by norm_num))
  exact Nat.or_lt_two_pow h1 h2

/-- A read whose transfer succeeds yields the addressed byte. -/
theorem read_ok (chip : fan5404x_chg) (reg val : Nat)
    (hr : 0 ≤ nextOutcome chip.client.outcomes) :
    __fan5404x_read chip reg val =
      (0, chip.client.regs reg % 256,
        chip.withClient { regs := chip.client.regs, outcomes := chip.client.outcomes.tail,
                          log := BusOp.read reg :: chip.client.log }) := by
  have h0 : ¬ (((chip.client.regs reg % 256 : Nat) : Int) < 0) := by omega
  unfold __fan5404x_read i2c_smbus_read_byte_data
  simp only [if_neg (not_lt.mpr hr), if_neg h0, Int.toNat_ofNat, Nat.mod_mod]

theorem read_fail (chip : fan5404x_chg) (reg val : Nat)
    (hr : nextOutcome chip.client.outcomes < 0) :
    __fan5404x_read chip reg val =
      (nextOutcome chip.client.outcomes, val,
        chip.withClient { regs := chip.client.regs, outcomes := chip.client.outcomes.tail,
                          log := BusOp.read reg :: chip.client.log }) := by
  unfold __fan5404x_read i2c_smbus_read_byte_data
  simp only [if_pos hr]

/-- A masked write whose read fails: the error of the read, one read on the bus. -/
theorem masked_write_read_fail (chip : fan5404x_chg) (reg mask val : Nat)
    (hr : nextOutcome chip.client.outcomes < 0) :
    fan5404x_masked_write chip reg mask val =
      (nextOutcome chip.client.outcomes,
        chip.withClient { regs := chip.client.regs, outcomes := chip.client.outcomes.tail,
                          log := BusOp.read reg :: chip.client.log }) := by
  unfold fan5404x_masked_write
  simp only [read_fail chip reg 0 hr, if_pos hr]

/-- A masked write in factory mode whose read succeeds: success, one read on the bus. -/
theorem masked_write_factory (chip : fan5404x_chg) (reg mask val : Nat)
    (hf : chip.factory_mode = true)
    (hr : 0 ≤ nextOutcome chip.client.outcomes) :
    fan5404x_masked_write chip reg mask val =
      (0,
        chip.withClient { regs := chip.client.regs, outcomes := chip.client.outcomes.tail,
                          log := BusOp.read reg :: chip.client.log }) := by
  unfold fan5404x_masked_write
  simp [read_ok chip reg 0 hr, __fan5404x_write, fan5404x_chg.withClient, hf]

/-- A masked write whose read succeeds and whose write fails. -/
theorem masked_write_write_fail (chip : fan5404x_chg) (reg mask val : Nat)
    (hf : chip.factory_mode = false)
    (hr : 0 ≤ nextOutcome chip.client.outcomes)
    (hw : nextOutcome chip.client.outcomes.tail < 0) :
    fan5404x_masked_write chip reg mask val =
      (nextOutcome chip.client.outcomes.tail,
        chip.withClient
          { regs := chip.client.regs, outcomes := chip.client.outcomes.tail.tail,
            log := BusOp.write reg
                ((chip.client.regs reg % 256 &&& (255 ^^^ (mask % 256))) |||
                  ((val % 256) &&& (mask % 256))) ::
              BusOp.read reg :: chip.client.log }) := by
  unfold fan5404x_masked_write
  simp [read_ok chip reg 0 hr, __fan5404x_write, i2c_smbus_write_byte_data,
    fan5404x_chg.withClient, hf, hw, Nat.mod_eq_of_lt (byte_lt _ _ _)]

/-- A masked write outside factory mode whose two transfers succeed. -/
theorem masked_write_ok (chip : fan5404x_chg) (reg mask val : Nat)
    (hf : chip.factory_mode = false)
    (hr : 0 ≤ nextOutcome chip.client.outcomes)
    (hw : 0 ≤ nextOutcome chip.client.outcomes.tail) :
    fan5404x_masked_write chip reg mask val =
      (0,
        chip.withClient
          { regs := fun r =>
              if r = reg then
                (chip.client.regs reg % 256 &&& (255 ^^^ (mask % 256))) |||
                  ((val % 256) &&& (mask % 256))
              else chip.client.regs r,
            outcomes := chip.client.outcomes.tail.tail,
            log := BusOp.write reg
                ((chip.client.regs reg % 256 &&& (255 ^^^ (mask % 256))) |||
                  ((val % 256) &&& (mask % 256))) ::
              BusOp.read reg :: chip.client.log }) := by
  unfold fan5404x_masked_write
  simp [read_ok chip reg 0 hr, __fan5404x_write, i2c_smbus_write_byte_data,
    fan5404x_chg.withClient, hf, not_lt.mpr hw, Nat.mod_eq_of_lt (byte_lt _ _ _)]


theorem testBit_255 (i : Nat) : Nat.testBit 255 i = decide (i < 8) :=
  Nat.testBit_two_pow_sub_one 8 i

theorem testBit_byte_high (x i : Nat) (hi : ¬ i < 8) : (x % 256).testBit i = false := by
  have h := Nat.testBit_mod_two_pow x 8 i
  simp only [show (2 : Nat) ^ 8 = 256 from rfl] at h
  simp [h, hi]

/-- Bits outside the mask keep the current byte value. -/
theorem merge_outside_mask (cur mask val i : Nat) (hm : (mask % 256).testBit i = false) :
    (((cur % 256) &&& (255 ^^^ (mask % 256))) ||| ((val % 256) &&& (mask % 256))).testBit i
      = (cur % 256).testBit i := by
  by_cases hi : i < 8
  · simp [Nat.testBit_lor, Nat.testBit_land, Nat.testBit_xor, testBit_255, hm, hi]
  · simp [Nat.testBit_lor, Nat.testBit_land, Nat.testBit_xor, testBit_255, hm, hi,
      testBit_byte_high cur i hi]

/-- Bits inside the mask take the requested value. -/
theorem merge_inside_mask (cur mask val i : Nat) (hm : (mask % 256).testBit i = true) :
    (((cur % 256) &&& (255 ^^^ (mask % 256))) ||| ((val % 256) &&& (mask % 256))).testBit i
      = (val % 256).testBit i := by
  by_cases hi : i < 8
  · simp [Nat.testBit_lor, Nat.testBit_land, Nat.testBit_xor, testBit_255, hm, hi]
  · simp [Nat.testBit_lor, Nat.testBit_land, Nat.testBit_xor, testBit_255, hm, hi,
      testBit_byte_high cur i hi]


/-! ## Quantizer lemmas -/

/-- Passing a return code through `if (rc) return rc; return 0;`. -/
theorem rc_passthrough {α : Type} (r : Int × α) :
    (if r.1 ≠ 0 then (r.1, r.2) else (0, r.2)) = r := by
  by_cases h : r.1 = 0
  · rw [if_neg (not_not.mpr h)]
    exact Prod.ext h.symm rfl
  · rw [if_pos h]

/-- What the downward scan returns: either nothing was accepted, or the
accepted index is the first one from the top whose entry is at most `value`. -/
theorem scan_down_cases (tbl : Nat → Int) (value : Int) (n : Nat) :
    (scan_down tbl value n = -1 ∧ ∀ k, k ≤ n → value < tbl k) ∨
    (∃ i : Nat, i ≤ n ∧ scan_down tbl value n = (i : Int) ∧ tbl i ≤ value ∧
      ∀ k, i < k → k ≤ n → value < tbl k) := by
  induction n with
  | zero =>
    by_cases h : value ≥ tbl 0
    · right
      refine ⟨0, le_refl _, ?_, h, ?_⟩
      · simp [scan_down, h]
      · intro k hk hk0
        omega
    · left
      refine ⟨?_, ?_⟩
      · simp only [scan_down, if_neg h]
      · intro k hk
        have hk0 : k = 0 := by omega
        subst hk0
        exact lt_of_not_ge h
  | succ n ih =>
    by_cases h : value ≥ tbl (n + 1)
    · right
      refine ⟨n + 1, le_refl _, ?_, h, ?_⟩
      · simp only [scan_down, if_pos h]
      · intro k hk hk1
        omega
    · rcases ih with ⟨hs, hall⟩ | ⟨i, hi, hs, hle, hall⟩
      · left
        refine ⟨?_, ?_⟩
        · simp only [scan_down, if_neg h, hs]
        · intro k hk
          by_cases hk1 : k = n + 1
          · subst hk1
            exact lt_of_not_ge h
          · exact hall k (by omega)
      · right
        refine ⟨i, by omega, ?_, hle, ?_⟩
        · simp only [scan_down, if_neg h, hs]
        · intro k hik hk
          by_cases hk1 : k = n + 1
          · subst hk1
            exact lt_of_not_ge h
          · exact hall k hik (by omega)

theorem OREG_VALUE_eq (s : Nat) : OREG_VALUE s = 3500 + 20 * (s : Int) := by
  simp only [OREG_VALUE, OREG_MIN, OREG_STEP_MV]
  ring

theorem oreg_scan_low (value : Int) (h : value < 3500) :
    scan_down OREG_VALUE value OREG_STEPS = -1 := by
  rcases scan_down_cases OREG_VALUE value OREG_STEPS with ⟨hs, _⟩ | ⟨i, _, _, hle, _⟩
  · exact hs
  · rw [OREG_VALUE_eq] at hle
    omega

theorem oreg_scan_high (value : Int) (h : 3500 ≤ value) :
    ∃ i : Nat, i ≤ 48 ∧ scan_down OREG_VALUE value OREG_STEPS = (i : Int) ∧
      3500 + 20 * (i : Int) ≤ value ∧
      (value < 4460 → ∀ j : Nat, 3500 + 20 * (j : Int) ≤ value → j ≤ i) := by
  rcases scan_down_cases OREG_VALUE value OREG_STEPS with ⟨_, hall⟩ | ⟨i, hi, hs, hle, hall⟩
  · have h0 := hall 0 (Nat.zero_le _)
    rw [OREG_VALUE_eq] at h0
    omega
  · rw [OREG_VALUE_eq] at hle
    refine ⟨i, hi, hs, hle, ?_⟩
    intro hv j hj
    by_contra hji
    have hj48 : j ≤ OREG_STEPS := by
      simp only [OREG_STEPS]
      omega
    have hlt := hall j (by omega) hj48
    rw [OREG_VALUE_eq] at hlt
    omega

/-- The accepted index is the largest index of the table, 0 to `OREG_STEPS`,
whose entry is at most `value`. -/
theorem oreg_scan_top (value : Int) (h : 3500 ≤ value) :
    ∃ i : Nat, i ≤ 48 ∧ scan_down OREG_VALUE value OREG_STEPS = (i : Int) ∧
      3500 + 20 * (i : Int) ≤ value ∧
      (∀ j : Nat, j ≤ 48 → 3500 + 20 * (j : Int) ≤ value → j ≤ i) := by
  rcases scan_down_cases OREG_VALUE value OREG_STEPS with ⟨_, hall⟩ | ⟨i, hi, hs, hle, hall⟩
  · have h0 := hall 0 (Nat.zero_le _)
    rw [OREG_VALUE_eq] at h0
    omega
  · rw [OREG_VALUE_eq] at hle
    refine ⟨i, hi, hs, hle, ?_⟩
    intro j hj48 hj
    by_contra hji
    have hlt := hall j (by omega) hj48
    rw [OREG_VALUE_eq] at hlt
    omega

theorem set_oreg_accepted (chip : fan5404x_chg) (value : Int) (i : Nat)
    (hs : scan_down OREG_VALUE value OREG_STEPS = (i : Int)) :
    fan5404x_set_oreg chip value =
      fan5404x_masked_write chip REG_OREG OREG_OREG (i <<< OREG_OREG_SHIFT) := by
  have h0 : ¬ ((i : Int) < 0) := by omega
  unfold fan5404x_set_oreg
  simp only [hs, if_neg h0, Int.toNat_ofNat]
  exact rc_passthrough _

theorem set_oreg_rejected (chip : fan5404x_chg) (value : Int)
    (hs : scan_down OREG_VALUE value OREG_STEPS = -1) :
    fan5404x_set_oreg chip value = (-EINVAL, chip) := by
  unfold fan5404x_set_oreg
  simp [hs]

set_option maxRecDepth 1000000 in
theorem oreg_field_aux : ∀ i : Fin 64, ∀ x : Fin 256,
    (((x.val &&& (255 ^^^ (252 % 256))) ||| (((i.val <<< 2) % 256) &&& (252 % 256))) >>> 2
        = i.val) ∧
    (((x.val &&& (255 ^^^ (252 % 256))) ||| (((i.val <<< 2) % 256) &&& (252 % 256))) &&& 3
        = x.val &&& 3) := by
  decide

/-- Writing code `i` into `OREG` bits 7:2 of a byte `x`. -/
theorem oreg_field (x i : Nat) (hi : i < 64) :
    ((((x % 256) &&& (255 ^^^ (OREG_OREG % 256))) |||
        (((i <<< OREG_OREG_SHIFT) % 256) &&& (OREG_OREG % 256))) >>> 2 = i) ∧
    ((((x % 256) &&& (255 ^^^ (OREG_OREG % 256))) |||
        (((i <<< OREG_OREG_SHIFT) % 256) &&& (OREG_OREG % 256))) &&& 3 = (x % 256) &&& 3) :=
  oreg_field_aux ⟨i, hi⟩ ⟨x % 256, Nat.mod_lt _ (by norm_num)⟩

theorem ibuslim_vals_eq : ibuslim_vals = [2147483647, 500, 800] := by decide

theorem ibuslim_scan (limit : Int) :
    scan_down (fun k => ibuslim_vals.getD k 0) limit (ibuslim_vals.length - 1) =
      if limit ≥ 800 then 2 else if limit ≥ 500 then 1
      else if limit ≥ 2147483647 then 0 else -1 := by
  rw [ibuslim_vals_eq]
  simp [scan_down]

theorem set_ibuslim_accepted (chip : fan5404x_chg) (limit : Int) (i : Nat)
    (hs : scan_down (fun k => ibuslim_vals.getD k 0) limit (ibuslim_vals.length - 1)
      = (i : Int)) :
    fan5404x_set_ibuslim chip limit =
      fan5404x_masked_write chip REG_CONTROL1 CONTROL1_IBUSLIM
        (i <<< CONTROL1_IBUSLIM_SHIFT) := by
  have h0 : ¬ ((i : Int) < 0) := by omega
  unfold fan5404x_set_ibuslim
  simp only [hs, if_neg h0, Int.toNat_ofNat]
  exact rc_passthrough _

theorem set_ibuslim_mid (chip : fan5404x_chg) (limit : Int) (h1 : 500 ≤ limit)
    (h2 : limit < 800) :
    fan5404x_set_ibuslim chip limit =
      fan5404x_masked_write chip REG_CONTROL1 CONTROL1_IBUSLIM
        (1 <<< CONTROL1_IBUSLIM_SHIFT) := by
  apply set_ibuslim_accepted
  rw [ibuslim_scan, if_neg (by omega), if_pos (by omega)]
  rfl

theorem set_ibuslim_top (chip : fan5404x_chg) (limit : Int) (h1 : 800 ≤ limit) :
    fan5404x_set_ibuslim chip limit =
      fan5404x_masked_write chip REG_CONTROL1 CONTROL1_IBUSLIM
        (2 <<< CONTROL1_IBUSLIM_SHIFT) := by
  apply set_ibuslim_accepted
  rw [ibuslim_scan, if_pos (by omega)]
  rfl

theorem set_ibuslim_below_500 (chip : fan5404x_chg) (limit : Int) (h : limit < 500) :
    fan5404x_set_ibuslim chip limit = (-EINVAL, chip) := by
  have hs : scan_down (fun k => ibuslim_vals.getD k 0) limit (ibuslim_vals.length - 1)
      = -1 := by
    rw [ibuslim_scan]
    have h1 : ¬ limit ≥ 800 := by omega
    have h2 : ¬ limit ≥ 500 := by omega
    have h3 : ¬ limit ≥ 2147483647 := by omega
    simp only [if_neg h1, if_neg h2, if_neg h3]
  unfold fan5404x_set_ibuslim
  simp only [hs]
  rw [if_pos (by norm_num)]

set_option maxRecDepth 1000000 in
theorem ibuslim_field_aux : ∀ i : Fin 4, ∀ x : Fin 256,
    (((x.val &&& (255 ^^^ (192 % 256))) ||| (((i.val <<< 6) % 256) &&& (192 % 256))) >>> 6
        = i.val) ∧
    (((x.val &&& (255 ^^^ (192 % 256))) ||| (((i.val <<< 6) % 256) &&& (192 % 256))) &&& 63
        = x.val &&& 63) := by
  decide

/-- Writing code `i` into `CONTROL1` bits 7:6 of a byte `x`. -/
theorem ibuslim_field (x i : Nat) (hi : i < 4) :
    ((((x % 256) &&& (255 ^^^ (CONTROL1_IBUSLIM % 256))) |||
        (((i <<< CONTROL1_IBUSLIM_SHIFT) % 256) &&& (CONTROL1_IBUSLIM % 256))) >>> 6 = i) ∧
    ((((x % 256) &&& (255 ^^^ (CONTROL1_IBUSLIM % 256))) |||
        (((i <<< CONTROL1_IBUSLIM_SHIFT) % 256) &&& (CONTROL1_IBUSLIM % 256))) &&& 63
      = (x % 256) &&& 63) :=
  ibuslim_field_aux ⟨i, hi⟩ ⟨x % 256, Nat.mod_lt _ (by norm_num)⟩

theorem set_iocharge_accepted (chip : fan5404x_chg) (limit : Int) (i : Nat)
    (hs : scan_down IBAT_STEP_CURRENT limit IBAT_IOCHARGE_STEPS = (i : Int)) :
    fan5404x_set_iocharge chip limit =
      fan5404x_masked_write chip REG_IBAT (IBAT_IOCHARGE ||| IBAT_RESET)
        (i <<< IBAT_IOCHARGE_SHIFT) := by
  have h0 : ¬ ((i : Int) < 0) := by omega
  unfold fan5404x_set_iocharge
  simp only [hs, if_neg h0, Int.toNat_ofNat]
  exact rc_passthrough _

theorem set_iocharge_rejected (chip : fan5404x_chg) (limit : Int)
    (hs : scan_down IBAT_STEP_CURRENT limit IBAT_IOCHARGE_STEPS = -1) :
    fan5404x_set_iocharge chip limit = (-EINVAL, chip) := by
  unfold fan5404x_set_iocharge
  simp only [hs]
  rw [if_pos (by norm_num)]

theorem IBAT_STEP_CURRENT_eq (s : Nat) : IBAT_STEP_CURRENT s = 550 + 100 * (s : Int) := by
  simp only [IBAT_STEP_CURRENT, IBAT_IOCHARGE_MIN, IBAT_IOCHARGE_STEP_MA]
  ring

theorem iocharge_scan_low (limit : Int) (h : limit < 550) :
    scan_down IBAT_STEP_CURRENT limit IBAT_IOCHARGE_STEPS = -1 := by
  rcases scan_down_cases IBAT_STEP_CURRENT limit IBAT_IOCHARGE_STEPS
    with ⟨hs, _⟩ | ⟨i, _, _, hle, _⟩
  · exact hs
  · rw [IBAT_STEP_CURRENT_eq] at hle
    omega

/-- The accepted index is the largest index of the table, 0 to
`IBAT_IOCHARGE_STEPS`, whose entry is at most `limit`. -/
theorem iocharge_scan_top (limit : Int) (h : 550 ≤ limit) :
    ∃ i : Nat, i ≤ 11 ∧ scan_down IBAT_STEP_CURRENT limit IBAT_IOCHARGE_STEPS = (i : Int) ∧
      550 + 100 * (i : Int) ≤ limit ∧
      (∀ j : Nat, j ≤ 11 → 550 + 100 * (j : Int) ≤ limit → j ≤ i) := by
  rcases scan_down_cases IBAT_STEP_CURRENT limit IBAT_IOCHARGE_STEPS
    with ⟨_, hall⟩ | ⟨i, hi, hs, hle, hall⟩
  · have h0 := hall 0 (Nat.zero_le _)
    rw [IBAT_STEP_CURRENT_eq] at h0
    omega
  · rw [IBAT_STEP_CURRENT_eq] at hle
    refine ⟨i, hi, hs, hle, ?_⟩
    intro j hj11 hj
    by_contra hji
    have hlt := hall j (by omega) hj11
    rw [IBAT_STEP_CURRENT_eq] at hlt
    omega

/-- The scans never leave their table: the index after the loop is at most the
index the loop starts from. -/
theorem scan_down_le (tbl : Nat → Int) (value : Int) (n : Nat) :
    scan_down tbl value n ≤ (n : Int) := by
  rcases scan_down_cases tbl value n with ⟨hs, _⟩ | ⟨i, hi, hs, _, _⟩
  · rw [hs]
    omega
  · rw [hs]
    omega

set_option maxRecDepth 1000000 in
theorem ibat_field_aux : ∀ i : Fin 16, ∀ x : Fin 256,
    ((((x.val &&& (255 ^^^ (248 % 256))) ||| (((i.val <<< 3) % 256) &&& (248 % 256))) >>> 3)
        &&& 0xF = i.val) ∧
    (((x.val &&& (255 ^^^ (248 % 256))) ||| (((i.val <<< 3) % 256) &&& (248 % 256))) &&& 0x80
        = 0) ∧
    (((x.val &&& (255 ^^^ (248 % 256))) ||| (((i.val <<< 3) % 256) &&& (248 % 256))) &&& 7
        = x.val &&& 7) := by
  decide

/-- Writing code `i` into `IBAT` bits 6:3 of a byte `x`, with `RESET` low. -/
theorem ibat_field (x i : Nat) (hi : i < 16) :
    (((((x % 256) &&& (255 ^^^ ((IBAT_IOCHARGE ||| IBAT_RESET) % 256))) |||
        (((i <<< IBAT_IOCHARGE_SHIFT) % 256) &&& ((IBAT_IOCHARGE ||| IBAT_RESET) % 256)))
          >>> 3) &&& 0xF = i) ∧
    ((((x % 256) &&& (255 ^^^ ((IBAT_IOCHARGE ||| IBAT_RESET) % 256))) |||
        (((i <<< IBAT_IOCHARGE_SHIFT) % 256) &&& ((IBAT_IOCHARGE ||| IBAT_RESET) % 256)))
          &&& 0x80 = 0) ∧
    ((((x % 256) &&& (255 ^^^ ((IBAT_IOCHARGE ||| IBAT_RESET) % 256))) |||
        (((i <<< IBAT_IOCHARGE_SHIFT) % 256) &&& ((IBAT_IOCHARGE ||| IBAT_RESET) % 256)))
          &&& 7 = (x % 256) &&& 7) :=
  ibat_field_aux ⟨i, hi⟩ ⟨x % 256, Nat.mod_lt _ (by norm_num)⟩

/-! ## Transport: the masked write -/

/-- C1: outside factory mode, when the read and the write both succeed,
`fan5404x_masked_write` returns 0 and leaves the addressed register equal to
`(current & ~mask) | (value & mask)` on eight bits: every bit outside the mask
is that of the current byte, every bit inside it that of the value, and every
other register is unchanged. -/
theorem masked_write_merges_under_mask (chip : fan5404x_chg) (reg mask val : Nat)
    (hf : chip.factory_mode = false)
    (hr : 0 ≤ nextOutcome chip.client.outcomes)
    (hw : 0 ≤ nextOutcome chip.client.outcomes.tail) :
    (fan5404x_masked_write chip reg mask val).1 = 0 ∧
    (fan5404x_masked_write chip reg mask val).2.client.regs reg =
      ((chip.client.regs reg % 256) &&& (255 ^^^ (mask % 256))) |||
        ((val % 256) &&& (mask % 256)) ∧
    (fan5404x_masked_write chip reg mask val).2.client.regs reg < 256 ∧
    (∀ i, (mask % 256).testBit i = false →
      ((fan5404x_masked_write chip reg mask val).2.client.regs reg).testBit i =
        (chip.client.regs reg % 256).testBit i) ∧
    (∀ i, (mask % 256).testBit i = true →
      ((fan5404x_masked_write chip reg mask val).2.client.regs reg).testBit i =
        (val % 256).testBit i) ∧
    (∀ r, r ≠ reg →
      (fan5404x_masked_write chip reg mask val).2.client.regs r = chip.client.regs r) := by
  rw [masked_write_ok chip reg mask val hf hr hw]
  simp only [fan5404x_chg.withClient, if_true]
  refine ⟨trivial, trivial, byte_lt _ _ _, ?_, ?_, ?_⟩
  · intro i hm
    exact merge_outside_mask _ _ _ i hm
  · intro i hm
    exact merge_inside_mask _ _ _ i hm
  · intro r hne
    simp only [if_neg hne]

theorem masked_write_merges_under_mask_witness :
    (fan5404x_masked_write sampleChip REG_CONTROL1 0xC0 0x40).1 = 0 ∧
    (fan5404x_masked_write sampleChip REG_CONTROL1 0xC0 0x40).2.client.regs REG_CONTROL1
      = 0x6D ∧
    (fan5404x_masked_write sampleChip REG_CONTROL1 0xC0 0x40).2.client.regs REG_OREG
      = sampleChip.client.regs REG_OREG :=
  have h := masked_write_merges_under_mask sampleChip REG_CONTROL1 0xC0 0x40 rfl
    (by decide) (by decide)
  ⟨h.1, h.2.1.trans (by decide), h.2.2.2.2.2 REG_OREG (by decide)⟩

/-- C2: when the read step of `fan5404x_masked_write` fails, the function
returns the negative error code of the read, the only transfer it has put on the bus
is that read (no write), and no register and no other field of the device
handle has changed. -/
theorem masked_write_read_failure (chip : fan5404x_chg) (reg mask val : Nat)
    (hr : nextOutcome chip.client.outcomes < 0) :
    (fan5404x_masked_write chip reg mask val).1 = nextOutcome chip.client.outcomes ∧
    (fan5404x_masked_write chip reg mask val).1 < 0 ∧
    (fan5404x_masked_write chip reg mask val).2.client.log
      = BusOp.read reg :: chip.client.log ∧
    (fan5404x_masked_write chip reg mask val).2.client.regs = chip.client.regs ∧
    (fan5404x_masked_write chip reg mask val).2 =
      chip.withClient (fan5404x_masked_write chip reg mask val).2.client := by
  rw [masked_write_read_fail chip reg mask val hr]
  exact ⟨rfl, hr, rfl, rfl, rfl⟩

theorem masked_write_read_failure_witness :
    (fan5404x_masked_write faultyChip REG_CONTROL1 0xC0 0x40).1 = -5 ∧
    (fan5404x_masked_write faultyChip REG_CONTROL1 0xC0 0x40).2.client.log
      = [BusOp.read REG_CONTROL1] :=
  have h := masked_write_read_failure faultyChip REG_CONTROL1 0xC0 0x40 (by decide)
  ⟨h.1.trans (by decide), h.2.2.1⟩

/-! ## Threshold tables: the quantizers -/

/-- C3 (amended): outside factory mode on a healthy bus, for every requested
value of at least 3500 mV `fan5404x_set_oreg` returns 0 and programs into bits
7:2 of `OREG` the largest code `i` of the table, 0 to 48 (`OREG_STEPS`, the
index the scan starts from), with `3500 + 20 * i <= value`, leaving bits 1:0
and every other register unchanged. For every value below 4480 mV this is the
largest code with `3500 + 20 * i <= value` of all; for every value from 4460 mV
on it is code 48, the top of the table (saturation). For every value below
3500 mV the function returns `-EINVAL` and leaves the whole device handle, bus
log included, as it was; a request of 4350 mV programs code 42. -/
theorem set_oreg_floor (chip : fan5404x_chg) :
    (chip.factory_mode = false → 0 ≤ nextOutcome chip.client.outcomes →
      0 ≤ nextOutcome chip.client.outcomes.tail →
      (∀ value : Int, 3500 ≤ value →
        ∃ i : Nat, i ≤ 48 ∧ 3500 + 20 * (i : Int) ≤ value ∧
          (∀ j : Nat, j ≤ 48 → 3500 + 20 * (j : Int) ≤ value → j ≤ i) ∧
          (value < 4480 → ∀ j : Nat, 3500 + 20 * (j : Int) ≤ value → j ≤ i) ∧
          (4460 ≤ value → i = 48) ∧
          (fan5404x_set_oreg chip value).1 = 0 ∧
          (fan5404x_set_oreg chip value).2.client.regs REG_OREG >>> 2 = i ∧
          (fan5404x_set_oreg chip value).2.client.regs REG_OREG &&& 3
            = (chip.client.regs REG_OREG % 256) &&& 3 ∧
          ∀ r, r ≠ REG_OREG →
            (fan5404x_set_oreg chip value).2.client.regs r = chip.client.regs r) ∧
      (fan5404x_set_oreg chip 4350).2.client.regs REG_OREG >>> 2 = 42) ∧
    (∀ value : Int, value < 3500 → fan5404x_set_oreg chip value = (-EINVAL, chip)) := by
  refine ⟨fun hf hr hw => ?_, ?_⟩
  · have key : ∀ (value : Int) (i : Nat), i ≤ 48 →
        scan_down OREG_VALUE value OREG_STEPS = (i : Int) →
        (fan5404x_set_oreg chip value).1 = 0 ∧
        (fan5404x_set_oreg chip value).2.client.regs REG_OREG >>> 2 = i ∧
        (fan5404x_set_oreg chip value).2.client.regs REG_OREG &&& 3
          = (chip.client.regs REG_OREG % 256) &&& 3 ∧
        ∀ r, r ≠ REG_OREG →
          (fan5404x_set_oreg chip value).2.client.regs r = chip.client.regs r := by
      intro value i hi hs
      rw [set_oreg_accepted chip value i hs, masked_write_ok chip _ _ _ hf hr hw]
      simp only [fan5404x_chg.withClient, if_true]
      refine ⟨trivial, (oreg_field _ i (by omega)).1, (oreg_field _ i (by omega)).2, ?_⟩
      intro r hne
      simp only [if_neg hne]
    refine ⟨?_, (key 4350 42 (by norm_num) (by decide)).2.1⟩
    intro value hv
    obtain ⟨i, hi, hs, hle, hmax⟩ := oreg_scan_top value hv
    refine ⟨i, hi, hle, hmax, ?_, ?_, key value i hi hs⟩
    · intro hlt j hj
      exact hmax j (by omega) hj
    · intro hge
      have h48 := hmax 48 (le_refl _) (by omega)
      omega
  · intro value hv
    exact set_oreg_rejected chip value (oreg_scan_low value hv)

theorem set_oreg_floor_witness :
    ((∀ value : Int, 3500 ≤ value →
        ∃ i : Nat, i ≤ 48 ∧ 3500 + 20 * (i : Int) ≤ value ∧
          (∀ j : Nat, j ≤ 48 → 3500 + 20 * (j : Int) ≤ value → j ≤ i) ∧
          (value < 4480 → ∀ j : Nat, 3500 + 20 * (j : Int) ≤ value → j ≤ i) ∧
          (4460 ≤ value → i = 48) ∧
          (fan5404x_set_oreg sampleChip value).1 = 0 ∧
          (fan5404x_set_oreg sampleChip value).2.client.regs REG_OREG >>> 2 = i ∧
          (fan5404x_set_oreg sampleChip value).2.client.regs REG_OREG &&& 3
            = (sampleChip.client.regs REG_OREG % 256) &&& 3 ∧
          ∀ r, r ≠ REG_OREG →
            (fan5404x_set_oreg sampleChip value).2.client.regs r
              = sampleChip.client.regs r) ∧
      (fan5404x_set_oreg sampleChip 4350).2.client.regs REG_OREG >>> 2 = 42) ∧
    fan5404x_set_oreg sampleChip 3499 = (-EINVAL, sampleChip) :=
  ⟨(set_oreg_floor sampleChip).1 rfl (by decide) (by decide),
    (set_oreg_floor sampleChip).2 3499 (by norm_num)⟩

/-- C3, as first stated, fails where the table ends: a request of 4480 mV is
accepted and programs code 48, although 49 is a code of the six-bit field with
`3500 + 20 * 49 <= 4480`, so the programmed code is not the largest code `i`
with `3500 + 20 * i <= 4480`. -/
theorem set_oreg_not_largest_at_4480 :
    sampleChip.factory_mode = false ∧
    0 ≤ nextOutcome sampleChip.client.outcomes ∧
    0 ≤ nextOutcome sampleChip.client.outcomes.tail ∧
    (fan5404x_set_oreg sampleChip 4480).1 = 0 ∧
    (fan5404x_set_oreg sampleChip 4480).2.client.regs REG_OREG >>> 2 = 48 ∧
    (49 < 64 ∧ 3500 + 20 * (49 : Int) ≤ 4480) ∧
    ¬ (∀ j : Nat, j < 64 → 3500 + 20 * (j : Int) ≤ 4480 →
        j ≤ (fan5404x_set_oreg sampleChip 4480).2.client.regs REG_OREG >>> 2) := by
  have h48 : (fan5404x_set_oreg sampleChip 4480).2.client.regs REG_OREG >>> 2 = 48 := by
    decide
  refine ⟨rfl, by decide, by decide, by decide, h48, ⟨by norm_num, by norm_num⟩, ?_⟩
  intro h
  have h49 := h 49 (by norm_num) (by norm_num)
  rw [h48] at h49
  omega

/-- C4: the table `ibuslim_vals` is `{INT_MAX, 500, 800}`, because its last
initializer names slot `IBUSLIM_100MA` again, and so `fan5404x_set_ibuslim`
rejects the limits 100 and 499 with `-EINVAL` without touching the device,
where the four-entry table 100 / 500 / 800 / no-limit gives code 0. -/
theorem set_ibuslim_rejects_100 (chip : fan5404x_chg) :
    ibuslim_vals = [INT_MAX, 500, 800] ∧
    fan5404x_set_ibuslim chip 100 = (-EINVAL, chip) ∧
    fan5404x_set_ibuslim chip 499 = (-EINVAL, chip) :=
  ⟨ibuslim_vals_eq, set_ibuslim_below_500 chip 100 (by norm_num),
    set_ibuslim_below_500 chip 499 (by norm_num)⟩

/-- C5: outside factory mode on a healthy bus, every limit in 500..799 mA makes
`fan5404x_set_ibuslim` return 0 with code 1 in bits 7:6 of `CONTROL1`, every
limit of at least 800 mA code 2, in both cases with bits 5:0 and every other
register unchanged; every limit below 100 mA returns `-EINVAL` and leaves the
whole device handle, bus log included, as it was. -/
theorem set_ibuslim_codes (chip : fan5404x_chg) :
    (chip.factory_mode = false → 0 ≤ nextOutcome chip.client.outcomes →
      0 ≤ nextOutcome chip.client.outcomes.tail →
      (∀ limit : Int, 500 ≤ limit → limit < 800 →
        (fan5404x_set_ibuslim chip limit).1 = 0 ∧
        (fan5404x_set_ibuslim chip limit).2.client.regs REG_CONTROL1 >>> 6 = 1 ∧
        (fan5404x_set_ibuslim chip limit).2.client.regs REG_CONTROL1 &&& 0x3F
          = (chip.client.regs REG_CONTROL1 % 256) &&& 0x3F ∧
        ∀ r, r ≠ REG_CONTROL1 →
          (fan5404x_set_ibuslim chip limit).2.client.regs r = chip.client.regs r) ∧
      (∀ limit : Int, 800 ≤ limit →
        (fan5404x_set_ibuslim chip limit).1 = 0 ∧
        (fan5404x_set_ibuslim chip limit).2.client.regs REG_CONTROL1 >>> 6 = 2 ∧
        (fan5404x_set_ibuslim chip limit).2.client.regs REG_CONTROL1 &&& 0x3F
          = (chip.client.regs REG_CONTROL1 % 256) &&& 0x3F ∧
        ∀ r, r ≠ REG_CONTROL1 →
          (fan5404x_set_ibuslim chip limit).2.client.regs r = chip.client.regs r)) ∧
    (∀ limit : Int, limit < 100 → fan5404x_set_ibuslim chip limit = (-EINVAL, chip)) := by
  refine ⟨fun hf hr hw => ?_, ?_⟩
  · have key : ∀ i : Nat, i < 4 →
        (fan5404x_masked_write chip REG_CONTROL1 CONTROL1_IBUSLIM
          (i <<< CONTROL1_IBUSLIM_SHIFT)).1 = 0 ∧
        (fan5404x_masked_write chip REG_CONTROL1 CONTROL1_IBUSLIM
          (i <<< CONTROL1_IBUSLIM_SHIFT)).2.client.regs REG_CONTROL1 >>> 6 = i ∧
        (fan5404x_masked_write chip REG_CONTROL1 CONTROL1_IBUSLIM
          (i <<< CONTROL1_IBUSLIM_SHIFT)).2.client.regs REG_CONTROL1 &&& 0x3F
          = (chip.client.regs REG_CONTROL1 % 256) &&& 0x3F ∧
        ∀ r, r ≠ REG_CONTROL1 →
          (fan5404x_masked_write chip REG_CONTROL1 CONTROL1_IBUSLIM
            (i <<< CONTROL1_IBUSLIM_SHIFT)).2.client.regs r = chip.client.regs r := by
      intro i hi
      rw [masked_write_ok chip _ _ _ hf hr hw]
      simp only [fan5404x_chg.withClient, if_true]
      refine ⟨trivial, (ibuslim_field _ i hi).1, (ibuslim_field _ i hi).2, ?_⟩
      intro r hne
      simp only [if_neg hne]
    refine ⟨?_, ?_⟩
    · intro limit h1 h2
      rw [set_ibuslim_mid chip limit h1 h2]
      exact key 1 (by norm_num)
    · intro limit h1
      rw [set_ibuslim_top chip limit h1]
      exact key 2 (by norm_num)
  · intro limit h
    exact set_ibuslim_below_500 chip limit (by omega)

theorem set_ibuslim_codes_witness :
    ((fan5404x_set_ibuslim sampleChip 600).1 = 0 ∧
      (fan5404x_set_ibuslim sampleChip 600).2.client.regs REG_CONTROL1 >>> 6 = 1 ∧
      (fan5404x_set_ibuslim sampleChip 600).2.client.regs REG_CONTROL1 &&& 0x3F
        = (sampleChip.client.regs REG_CONTROL1 % 256) &&& 0x3F ∧
      ∀ r, r ≠ REG_CONTROL1 →
        (fan5404x_set_ibuslim sampleChip 600).2.client.regs r = sampleChip.client.regs r) ∧
    (fan5404x_set_ibuslim sampleChip 800).2.client.regs REG_CONTROL1 >>> 6 = 2 ∧
    fan5404x_set_ibuslim sampleChip 50 = (-EINVAL, sampleChip) :=
  have h := (set_ibuslim_codes sampleChip).1 rfl (by decide) (by decide)
  ⟨h.1 600 (by norm_num) (by norm_num), (h.2 800 (by norm_num)).2.1,
    (set_ibuslim_codes sampleChip).2 50 (by norm_num)⟩

/-- C6 (amended): for every requested value the index that the scan of
`fan5404x_set_oreg` ends with is at most 48 and that of `fan5404x_set_iocharge`
at most 11: `OREG_STEPS` and `IBAT_IOCHARGE_STEPS` are the top indices of the
scans, so the codes are the 49 codes 0..48 (at most 4460 mV) and the 12 codes
0..11 (at most 1650 mA). A value below the first entry (3500 mV, 550 mA) is
rejected with `-EINVAL` and nothing programmed; for any other value, outside
factory mode on a healthy bus, the field programmed into `OREG` bits 7:2 is a
code of at most 48 whose entry is at most the request and at most 4460 mV, and
the field programmed into `IBAT` bits 6:3 a code of at most 11 whose entry is
at most the request and at most 1650 mA. At the values that `start_charging`
requests, 4350 mV and 1550 mA, the scans end with 42 and 10. -/
theorem quantizer_codes_within_top_index (chip : fan5404x_chg) (value limit : Int) :
    (scan_down OREG_VALUE value OREG_STEPS ≤ 48 ∧
      scan_down IBAT_STEP_CURRENT limit IBAT_IOCHARGE_STEPS ≤ 11) ∧
    (value < 3500 → fan5404x_set_oreg chip value = (-EINVAL, chip)) ∧
    (limit < 550 → fan5404x_set_iocharge chip limit = (-EINVAL, chip)) ∧
    (chip.factory_mode = false → 0 ≤ nextOutcome chip.client.outcomes →
      0 ≤ nextOutcome chip.client.outcomes.tail →
      (3500 ≤ value →
        (fan5404x_set_oreg chip value).1 = 0 ∧
        (fan5404x_set_oreg chip value).2.client.regs REG_OREG >>> 2 ≤ 48 ∧
        OREG_VALUE ((fan5404x_set_oreg chip value).2.client.regs REG_OREG >>> 2) ≤ value ∧
        OREG_VALUE ((fan5404x_set_oreg chip value).2.client.regs REG_OREG >>> 2) ≤ 4460) ∧
      (550 ≤ limit →
        (fan5404x_set_iocharge chip limit).1 = 0 ∧
        ((fan5404x_set_iocharge chip limit).2.client.regs REG_IBAT >>> 3) &&& 0xF ≤ 11 ∧
        IBAT_STEP_CURRENT
            (((fan5404x_set_iocharge chip limit).2.client.regs REG_IBAT >>> 3) &&& 0xF)
          ≤ limit ∧
        IBAT_STEP_CURRENT
            (((fan5404x_set_iocharge chip limit).2.client.regs REG_IBAT >>> 3) &&& 0xF)
          ≤ 1650)) ∧
    (scan_down OREG_VALUE 4350 OREG_STEPS = 42 ∧
      scan_down IBAT_STEP_CURRENT 1550 IBAT_IOCHARGE_STEPS = 10) := by
  refine ⟨⟨scan_down_le _ _ _, scan_down_le _ _ _⟩, ?_, ?_, ?_, ⟨by decide, by decide⟩⟩
  · intro hv
    exact set_oreg_rejected chip value (oreg_scan_low value hv)
  · intro hl
    exact set_iocharge_rejected chip limit (iocharge_scan_low limit hl)
  · intro hf hr hw
    refine ⟨?_, ?_⟩
    · intro hv
      obtain ⟨i, hi, hs, hle, _⟩ := oreg_scan_top value hv
      have hreg : (fan5404x_set_oreg chip value).2.client.regs REG_OREG >>> 2 = i := by
        rw [set_oreg_accepted chip value i hs, masked_write_ok chip _ _ _ hf hr hw]
        simp only [fan5404x_chg.withClient, if_true]
        exact (oreg_field _ i (by omega)).1
      have hrc : (fan5404x_set_oreg chip value).1 = 0 := by
        rw [set_oreg_accepted chip value i hs, masked_write_ok chip _ _ _ hf hr hw]
      rw [hreg, OREG_VALUE_eq]
      refine ⟨hrc, hi, hle, ?_⟩
      omega
    · intro hl
      obtain ⟨i, hi, hs, hle, _⟩ := iocharge_scan_top limit hl
      have hreg : ((fan5404x_set_iocharge chip limit).2.client.regs REG_IBAT >>> 3) &&& 0xF
          = i := by
        rw [set_iocharge_accepted chip limit i hs, masked_write_ok chip _ _ _ hf hr hw]
        simp only [fan5404x_chg.withClient, if_true]
        exact (ibat_field _ i (by omega)).1
      have hrc : (fan5404x_set_iocharge chip limit).1 = 0 := by
        rw [set_iocharge_accepted chip limit i hs, masked_write_ok chip _ _ _ hf hr hw]
      rw [hreg, IBAT_STEP_CURRENT_eq]
      refine ⟨hrc, hi, hle, ?_⟩
      omega

theorem quantizer_codes_within_top_index_witness :
    ((fan5404x_set_oreg sampleChip 6000).1 = 0 ∧
      (fan5404x_set_oreg sampleChip 6000).2.client.regs REG_OREG >>> 2 ≤ 48 ∧
      OREG_VALUE ((fan5404x_set_oreg sampleChip 6000).2.client.regs REG_OREG >>> 2)
        ≤ 6000 ∧
      OREG_VALUE ((fan5404x_set_oreg sampleChip 6000).2.client.regs REG_OREG >>> 2)
        ≤ 4460) ∧
    ((fan5404x_set_iocharge sampleChip 2000).1 = 0 ∧
      ((fan5404x_set_iocharge sampleChip 2000).2.client.regs REG_IBAT >>> 3) &&& 0xF ≤ 11 ∧
      IBAT_STEP_CURRENT
          (((fan5404x_set_iocharge sampleChip 2000).2.client.regs REG_IBAT >>> 3) &&& 0xF)
        ≤ 2000 ∧
      IBAT_STEP_CURRENT
          (((fan5404x_set_iocharge sampleChip 2000).2.client.regs REG_IBAT >>> 3) &&& 0xF)
        ≤ 1650) ∧
    fan5404x_set_oreg sampleChip 3499 = (-EINVAL, sampleChip) ∧
    fan5404x_set_iocharge sampleChip 549 = (-EINVAL, sampleChip) :=
  have h := (quantizer_codes_within_top_index sampleChip 6000 2000).2.2.2.1 rfl
    (by decide) (by decide)
  ⟨h.1 (by norm_num), h.2 (by norm_num),
    (quantizer_codes_within_top_index sampleChip 3499 549).2.1 (by norm_num),
    (quantizer_codes_within_top_index sampleChip 3499 549).2.2.1 (by norm_num)⟩

/-- C6, as first stated, fails at the top of both tables: a request of 4460 mV
is accepted by `fan5404x_set_oreg` and programs code 48, which is not one of
the codes 0..47 and stands for 4460 mV, above 4440 mV; a request of 1650 mA is
accepted by `fan5404x_set_iocharge` and programs code 11, which is not one of
the codes 0..10 and stands for 1650 mA, above 1550 mA. -/
theorem quantizer_codes_reach_top_index :
    (sampleChip.factory_mode = false ∧
      0 ≤ nextOutcome sampleChip.client.outcomes ∧
      0 ≤ nextOutcome sampleChip.client.outcomes.tail) ∧
    ((fan5404x_set_oreg sampleChip 4460).1 = 0 ∧
      (fan5404x_set_oreg sampleChip 4460).2.client.regs REG_OREG >>> 2 = 48 ∧
      ¬ ((fan5404x_set_oreg sampleChip 4460).2.client.regs REG_OREG >>> 2 ≤ 47) ∧
      ¬ (OREG_VALUE ((fan5404x_set_oreg sampleChip 4460).2.client.regs REG_OREG >>> 2)
          ≤ 4440)) ∧
    ((fan5404x_set_iocharge sampleChip 1650).1 = 0 ∧
      ((fan5404x_set_iocharge sampleChip 1650).2.client.regs REG_IBAT >>> 3) &&& 0xF = 11 ∧
      ¬ (((fan5404x_set_iocharge sampleChip 1650).2.client.regs REG_IBAT >>> 3) &&& 0xF
          ≤ 10) ∧
      ¬ (IBAT_STEP_CURRENT
            (((fan5404x_set_iocharge sampleChip 1650).2.client.regs REG_IBAT >>> 3) &&& 0xF)
          ≤ 1550)) := by
  decide

/-! ## Charge controller -/

theorem set_ibuslim_rejected (chip : fan5404x_chg) (limit : Int)
    (hs : scan_down (fun k => ibuslim_vals.getD k 0) limit (ibuslim_vals.length - 1) = -1) :
    fan5404x_set_ibuslim chip limit = (-EINVAL, chip) := by
  unfold fan5404x_set_ibuslim
  simp only [hs]
  rw [if_pos (by norm_num)]

/-- A masked write changes nothing of the handle but the bus endpoint, and
when it returns non-zero the registers are as before. -/
theorem masked_write_frame (chip : fan5404x_chg) (reg mask val : Nat) :
    (fan5404x_masked_write chip reg mask val).2 =
        chip.withClient (fan5404x_masked_write chip reg mask val).2.client ∧
    ((fan5404x_masked_write chip reg mask val).1 ≠ 0 →
      (fan5404x_masked_write chip reg mask val).2.client.regs = chip.client.regs) := by
  by_cases hr : nextOutcome chip.client.outcomes < 0
  · rw [masked_write_read_fail chip reg mask val hr]
    exact ⟨rfl, fun _ => rfl⟩
  · have hr0 : 0 ≤ nextOutcome chip.client.outcomes := not_lt.mp hr
    cases hf : chip.factory_mode with
    | true =>
      rw [masked_write_factory chip reg mask val hf hr0]
      exact ⟨rfl, fun _ => rfl⟩
    | false =>
      by_cases hw : nextOutcome chip.client.outcomes.tail < 0
      · rw [masked_write_write_fail chip reg mask val hf hr0 hw]
        exact ⟨rfl, fun _ => rfl⟩
      · rw [masked_write_ok chip reg mask val hf hr0 (not_lt.mp hw)]
        exact ⟨rfl, fun h => absurd rfl h⟩

/-- Every step of `start_charging` changes nothing of the handle but the bus
endpoint, and when it returns non-zero the registers are as before. -/
theorem start_step_frame (chip : fan5404x_chg) (k : Nat) :
    (start_step chip k).2 = chip.withClient (start_step chip k).2.client ∧
    ((start_step chip k).1 ≠ 0 →
      (start_step chip k).2.client.regs = chip.client.regs) := by
  have rej : ∀ rc : Int, ((rc, chip) : Int × fan5404x_chg).2
        = chip.withClient ((rc, chip) : Int × fan5404x_chg).2.client ∧
      (((rc, chip) : Int × fan5404x_chg).1 ≠ 0 →
        ((rc, chip) : Int × fan5404x_chg).2.client.regs = chip.client.regs) :=
    fun _ => ⟨rfl, fun _ => rfl⟩
  match k with
  | 0 => exact masked_write_frame chip _ _ _
  | 1 => exact rej _
  | 2 =>
    simp only [start_step]
    rcases scan_down_cases (fun k => ibuslim_vals.getD k 0)
      (Int.tdiv chip.usb_psy.current_max 1000) (ibuslim_vals.length - 1)
      with ⟨hs, _⟩ | ⟨i, _, hs, _, _⟩
    · rw [set_ibuslim_rejected chip _ hs]
      exact rej _
    · rw [set_ibuslim_accepted chip _ i hs]
      exact masked_write_frame chip _ _ _
  | 3 =>
    simp only [start_step]
    rcases scan_down_cases IBAT_STEP_CURRENT 1550 IBAT_IOCHARGE_STEPS
      with ⟨hs, _⟩ | ⟨i, _, hs, _, _⟩
    · rw [set_iocharge_rejected chip _ hs]
      exact rej _
    · rw [set_iocharge_accepted chip _ i hs]
      exact masked_write_frame chip _ _ _
  | 4 => exact masked_write_frame chip _ _ _
  | 5 =>
    simp only [start_step]
    rcases scan_down_cases OREG_VALUE 4350 OREG_STEPS with ⟨hs, _⟩ | ⟨i, _, hs, _, _⟩
    · rw [set_oreg_rejected chip _ hs]
      exact rej _
    · rw [set_oreg_accepted chip _ i hs]
      exact masked_write_frame chip _ _ _
  | 6 => exact masked_write_frame chip _ _ _
  | 7 => exact masked_write_frame chip _ _ _
  | _ + 8 => exact rej _

theorem start_step_charging (chip : fan5404x_chg) (k : Nat) :
    (start_step chip k).2.charging = chip.charging := by
  rw [(start_step_frame chip k).1]
  rfl

theorem start_state_charging (chip : fan5404x_chg) (k : Nat) :
    (start_state chip k).charging = chip.charging := by
  induction k with
  | zero => rfl
  | succ k ih =>
    simp only [start_state]
    rw [start_step_charging, ih]

set_option maxRecDepth 10000 in
/-- The function `start_charging` is its eight steps run in order. -/
theorem start_charging_eq_start_from (chip : fan5404x_chg) :
    start_charging chip = start_from chip 0 8 := by
  unfold start_charging
  simp only [start_from]
  rfl

theorem step_failed_ne_zero (k : Nat) (rc : Int) (h : step_failed k rc) : rc ≠ 0 := by
  match k, h with
  | 0, h => exact h
  | 1, h =>
    have h1 : rc < 0 := h
    omega
  | _ + 2, h => exact h

theorem start_from_reach (chip : fan5404x_chg) (k : Nat) (hk : k ≤ 8)
    (hok : ∀ j, j < k → ¬ step_failed j (start_step (start_state chip j) j).1) :
    start_from chip 0 8 = start_from (start_state chip k) k (8 - k) := by
  induction k with
  | zero => rfl
  | succ k ih =>
    rw [ih (by omega) (fun j hj => hok j (by omega))]
    have h8 : 8 - k = (8 - (k + 1)) + 1 := by omega
    rw [h8]
    simp only [start_from, if_neg (hok k (Nat.lt_succ_self k)), start_state]

theorem start_from_success (n : Nat) :
    ∀ (chip : fan5404x_chg) (k : Nat), (start_from chip k n).1 = 0 →
      (start_from chip k n).2.charging = true := by
  induction n with
  | zero =>
    intro chip k _
    rfl
  | succ n ih =>
    intro chip k h
    by_cases hf : step_failed k (start_step chip k).1
    · simp only [start_from, if_pos hf] at h
      exact absurd h (step_failed_ne_zero k _ hf)
    · simp only [start_from, if_neg hf] at h ⊢
      exact ih _ _ h

/-- C7: whenever `start_charging` returns 0 the flag `charging` is true
afterwards, and whenever `stop_charging` returns 0 it is false afterwards. -/
theorem charging_flag_after_success (chip : fan5404x_chg) :
    ((start_charging chip).1 = 0 → (start_charging chip).2.charging = true) ∧
    ((stop_charging chip).1 = 0 → (stop_charging chip).2.charging = false) := by
  constructor
  · rw [start_charging_eq_start_from]
    exact start_from_success 8 chip 0
  · unfold stop_charging
    dsimp only
    intro h
    by_cases h0 : (fan5404x_masked_write chip REG_CONTROL1 (CONTROL1_CE_N ||| CONTROL1_CE_N)
        CONTROL1_CE_N).1 ≠ 0
    · rw [if_pos h0] at h
      exact absurd h h0
    · rw [if_neg h0]

theorem charging_flag_after_success_witness :
    (start_charging sampleChip).2.charging = true ∧
    (stop_charging sampleChip).2.charging = false :=
  ⟨(charging_flag_after_success sampleChip).1 (by decide),
    (charging_flag_after_success sampleChip).2 (by decide)⟩

/-- C8: let step `k` of `start_charging` (one of its eight: the five masked
writes, the upstream `CURRENT_MAX` query and the three quantized settings) be
the first to fail, the steps before it having succeeded; the upstream query
fails on `rc < 0`, every other step on `rc != 0`. Then `start_charging` returns
exactly what that step returned, a non-zero code, the flag `charging` is what
it was before the call, and the registers are those left by the steps before
`k`. For `stop_charging`, when its masked write returns non-zero, that code is
returned and both the flag and the registers are as before the call. -/
theorem start_charging_aborts_at_failed_step (chip : fan5404x_chg) :
    (∀ k : Nat, k < 8 →
      (∀ j, j < k → ¬ step_failed j (start_step (start_state chip j) j).1) →
      step_failed k (start_step (start_state chip k) k).1 →
      start_charging chip = start_step (start_state chip k) k ∧
      (start_charging chip).1 ≠ 0 ∧
      (start_charging chip).2.charging = chip.charging ∧
      (start_charging chip).2.client.regs = (start_state chip k).client.regs) ∧
    ((fan5404x_masked_write chip REG_CONTROL1 (CONTROL1_CE_N ||| CONTROL1_CE_N)
        CONTROL1_CE_N).1 ≠ 0 →
      stop_charging chip =
        fan5404x_masked_write chip REG_CONTROL1 (CONTROL1_CE_N ||| CONTROL1_CE_N)
          CONTROL1_CE_N ∧
      (stop_charging chip).1 ≠ 0 ∧
      (stop_charging chip).2.charging = chip.charging ∧
      (stop_charging chip).2.client.regs = chip.client.regs) := by
  refine ⟨?_, ?_⟩
  · intro k hk hok hfail
    have hne : (start_step (start_state chip k) k).1 ≠ 0 := step_failed_ne_zero k _ hfail
    have heq : start_charging chip = start_step (start_state chip k) k := by
      rw [start_charging_eq_start_from, start_from_reach chip k (by omega) hok]
      have h8 : 8 - k = (8 - (k + 1)) + 1 := by omega
      rw [h8]
      simp only [start_from, if_pos hfail]
    refine ⟨heq, ?_, ?_, ?_⟩
    · rw [heq]
      exact hne
    · rw [heq, start_step_charging, start_state_charging]
    · rw [heq]
      exact (start_step_frame _ k).2 hne
  · intro h
    have hs : stop_charging chip =
        fan5404x_masked_write chip REG_CONTROL1 (CONTROL1_CE_N ||| CONTROL1_CE_N)
          CONTROL1_CE_N := by
      unfold stop_charging
      dsimp only
      rw [if_pos h]
    refine ⟨hs, ?_, ?_, ?_⟩
    · rw [hs]
      exact h
    · rw [hs, (masked_write_frame chip _ _ _).1]
      rfl
    · rw [hs]
      exact (masked_write_frame chip _ _ _).2 h

theorem start_charging_aborts_at_failed_step_witness :
    ((start_charging lowChip).1 = -EINVAL ∧
      (start_charging lowChip).2.charging = false ∧
      (start_charging lowChip).2.client.regs REG_CONTROL0 = 0xAD ∧
      lowChip.client.regs REG_CONTROL0 = 0x2D) ∧
    ((stop_charging faultyChip).1 = -5 ∧
      (stop_charging faultyChip).2.charging = faultyChip.charging ∧
      (stop_charging faultyChip).2.client.regs = faultyChip.client.regs) :=
  have h := (start_charging_aborts_at_failed_step lowChip).1 2 (by norm_num)
    (by
      intro j hj
      interval_cases j <;> decide)
    (by decide)
  have g := (start_charging_aborts_at_failed_step faultyChip).2 (by decide)
  ⟨⟨h.1 ▸ (by decide), h.2.2.1, h.2.2.2 ▸ (by decide), by decide⟩,
    ⟨g.1 ▸ (by decide), g.2.2.1, g.2.2.2⟩⟩

/-! ## The charge controller on a healthy bus -/

theorem healthy_next (l : List Int) (h : ∀ e ∈ l, 0 ≤ e) : 0 ≤ nextOutcome l := by
  cases l with
  | nil => exact le_refl _
  | cons a t => exact h a (List.mem_cons_self a t)

theorem healthy_tail (l : List Int) (h : ∀ e ∈ l, 0 ≤ e) : ∀ e ∈ l.tail, 0 ≤ e :=
  fun e he => h e (List.mem_of_mem_tail he)

/-- Outside factory mode on a bus without faults a masked write returns 0,
stores the merged byte and leaves the bus without faults. -/
theorem masked_write_healthy (chip : fan5404x_chg) (reg mask val : Nat)
    (hf : chip.factory_mode = false) (hh : ∀ e ∈ chip.client.outcomes, 0 ≤ e) :
    ∃ c : i2c_client,
      fan5404x_masked_write chip reg mask val = (0, chip.withClient c) ∧
      c.regs = merge_reg chip.client.regs reg mask val ∧
      (∀ e ∈ c.outcomes, 0 ≤ e) := by
  have hr := healthy_next _ hh
  have ht := healthy_tail _ hh
  have hw := healthy_next _ ht
  refine ⟨_, masked_write_ok chip reg mask val hf hr hw, rfl, healthy_tail _ ht⟩

theorem start_from_step (chip next : fan5404x_chg) (k n : Nat) (rc : Int)
    (h : start_step chip k = (rc, next)) (hok : ¬ step_failed k rc) :
    start_from chip k (n + 1) = start_from next (k + 1) n := by
  have hok2 : ¬ step_failed k (start_step chip k).1 := by
    rw [h]
    exact hok
  simp only [start_from, h, if_neg hok]

/-- Outside factory mode, on a bus without faults, with an upstream query that
succeeds and a limit that the input-current scan accepts with index `code`,
`start_charging` returns 0, sets `charging` and leaves `start_regs`. -/
theorem start_charging_healthy (chip : fan5404x_chg) (code : Nat)
    (hf : chip.factory_mode = false) (hh : ∀ e ∈ chip.client.outcomes, 0 ≤ e)
    (hrc : 0 ≤ chip.usb_psy.current_max_rc)
    (hs : scan_down (fun k => ibuslim_vals.getD k 0)
      (Int.tdiv chip.usb_psy.current_max 1000) (ibuslim_vals.length - 1) = (code : Int)) :
    ∃ c : i2c_client,
      start_charging chip = (0, { chip.withClient c with charging := true }) ∧
      c.regs = start_regs code chip.client.regs ∧
      (∀ e ∈ c.outcomes, 0 ≤ e) := by
  obtain ⟨c0, e0, r0, h0⟩ := masked_write_healthy chip REG_CONTROL0 CONTROL0_TMR_RST
    CONTROL0_TMR_RST hf hh
  obtain ⟨c2, e2, r2, h2⟩ := masked_write_healthy (chip.withClient c0) REG_CONTROL1
    CONTROL1_IBUSLIM (code <<< CONTROL1_IBUSLIM_SHIFT) hf h0
  obtain ⟨c3, e3, r3, h3⟩ := masked_write_healthy (chip.withClient c2) REG_IBAT
    (IBAT_IOCHARGE ||| IBAT_RESET) (10 <<< IBAT_IOCHARGE_SHIFT) hf h2
  obtain ⟨c4, e4, r4, h4⟩ := masked_write_healthy (chip.withClient c3) REG_VBUS_CONTROL
    VBUS_IO_LEVEL 0 hf h3
  obtain ⟨c5, e5, r5, h5⟩ := masked_write_healthy (chip.withClient c4) REG_OREG
    OREG_OREG (42 <<< OREG_OREG_SHIFT) hf h4
  obtain ⟨c6, e6, r6, h6⟩ := masked_write_healthy (chip.withClient c5) REG_WD_CONTROL
    WD_CONTROL_WD_DIS WD_CONTROL_WD_DIS hf h5
  obtain ⟨c7, e7, r7, h7⟩ := masked_write_healthy (chip.withClient c6) REG_CONTROL1
    (CONTROL1_TE ||| CONTROL1_CE_N) 0 hf h6
  have z : ∀ k, ¬ step_failed (k + 2) 0 := fun k h => h rfl
  have s0 : start_step chip 0 = (0, chip.withClient c0) := e0
  have s1 : start_step (chip.withClient c0) 1
      = (chip.usb_psy.current_max_rc, chip.withClient c0) := rfl
  have s2 : start_step (chip.withClient c0) 2 = (0, chip.withClient c2) := by
    show fan5404x_set_ibuslim (chip.withClient c0)
      (Int.tdiv chip.usb_psy.current_max 1000) = _
    rw [set_ibuslim_accepted (chip.withClient c0) _ code hs]
    exact e2
  have s3 : start_step (chip.withClient c2) 3 = (0, chip.withClient c3) := by
    show fan5404x_set_iocharge (chip.withClient c2) 1550 = _
    rw [set_iocharge_accepted (chip.withClient c2) 1550 10 (by decide)]
    exact e3
  have s4 : start_step (chip.withClient c3) 4 = (0, chip.withClient c4) := e4
  have s5 : start_step (chip.withClient c4) 5 = (0, chip.withClient c5) := by
    show fan5404x_set_oreg (chip.withClient c4) 4350 = _
    rw [set_oreg_accepted (chip.withClient c4) 4350 42 (by decide)]
    exact e5
  have s6 : start_step (chip.withClient c5) 6 = (0, chip.withClient c6) := e6
  have s7 : start_step (chip.withClient c6) 7 = (0, chip.withClient c7) := e7
  refine ⟨c7, ?_, ?_, h7⟩
  · rw [start_charging_eq_start_from,
      start_from_step chip _ 0 7 0 s0 (fun h => h rfl),
      start_from_step _ _ 1 6 _ s1 (fun h => absurd hrc (not_le.mpr h)),
      start_from_step _ _ 2 5 0 s2 (z 0),
      start_from_step _ _ 3 4 0 s3 (z 1),
      start_from_step _ _ 4 3 0 s4 (z 2),
      start_from_step _ _ 5 2 0 s5 (z 3),
      start_from_step _ _ 6 1 0 s6 (z 4),
      start_from_step _ _ 7 0 0 s7 (z 5)]
    rfl
  · have q7 : c7.regs = merge_reg c6.regs REG_CONTROL1 (CONTROL1_TE ||| CONTROL1_CE_N) 0 := r7
    have q6 : c6.regs = merge_reg c5.regs REG_WD_CONTROL WD_CONTROL_WD_DIS
      WD_CONTROL_WD_DIS := r6
    have q5 : c5.regs = merge_reg c4.regs REG_OREG OREG_OREG (42 <<< OREG_OREG_SHIFT) := r5
    have q4 : c4.regs = merge_reg c3.regs REG_VBUS_CONTROL VBUS_IO_LEVEL 0 := r4
    have q3 : c3.regs = merge_reg c2.regs REG_IBAT (IBAT_IOCHARGE ||| IBAT_RESET)
      (10 <<< IBAT_IOCHARGE_SHIFT) := r3
    have q2 : c2.regs = merge_reg c0.regs REG_CONTROL1 CONTROL1_IBUSLIM
      (code <<< CONTROL1_IBUSLIM_SHIFT) := r2
    rw [q7, q6, q5, q4, q3, q2, r0]
    rfl

theorem stop_charging_healthy (chip : fan5404x_chg)
    (hf : chip.factory_mode = false) (hh : ∀ e ∈ chip.client.outcomes, 0 ≤ e) :
    ∃ c : i2c_client,
      stop_charging chip = (0, { chip.withClient c with charging := false }) ∧
      c.regs = merge_reg chip.client.regs REG_CONTROL1 (CONTROL1_CE_N ||| CONTROL1_CE_N)
        CONTROL1_CE_N ∧
      (∀ e ∈ c.outcomes, 0 ≤ e) := by
  obtain ⟨c, e, r, h⟩ := masked_write_healthy chip REG_CONTROL1
    (CONTROL1_CE_N ||| CONTROL1_CE_N) CONTROL1_CE_N hf hh
  refine ⟨c, ?_, r, h⟩
  unfold stop_charging
  simp only [e]
  rfl

theorem merge_byte_lt (cur mask val : Nat) : merge_byte cur mask val < 256 :=
  byte_lt cur mask val

theorem merge_byte_mod (cur mask val : Nat) :
    merge_byte cur mask val = merge_byte (cur % 256) mask val := by
  simp only [merge_byte, Nat.mod_mod]

/-- Repeating a masked write stores the same byte again. -/
theorem merge_byte_idem (cur mask val : Nat) :
    merge_byte (merge_byte cur mask val) mask val = merge_byte cur mask val := by
  apply Nat.eq_of_testBit_eq
  intro i
  have hy : merge_byte cur mask val % 256 = merge_byte cur mask val :=
    Nat.mod_eq_of_lt (merge_byte_lt cur mask val)
  cases hm : (mask % 256).testBit i with
  | true =>
    have h1 := merge_inside_mask (merge_byte cur mask val) mask val i hm
    have h2 := merge_inside_mask cur mask val i hm
    calc (merge_byte (merge_byte cur mask val) mask val).testBit i
        = (val % 256).testBit i := h1
      _ = (merge_byte cur mask val).testBit i := h2.symm
  | false =>
    have h1 := merge_outside_mask (merge_byte cur mask val) mask val i hm
    calc (merge_byte (merge_byte cur mask val) mask val).testBit i
        = (merge_byte cur mask val % 256).testBit i := h1
      _ = (merge_byte cur mask val).testBit i := by rw [hy]

theorem merge_reg_other (regs : Nat → Nat) (reg mask val r : Nat) (h : r ≠ reg) :
    merge_reg regs reg mask val r = regs r := by
  simp only [merge_reg, if_neg h]

theorem start_regs_control0 (code : Nat) (regs : Nat → Nat) :
    start_regs code regs REG_CONTROL0 =
      merge_byte (regs REG_CONTROL0) CONTROL0_TMR_RST CONTROL0_TMR_RST := rfl

theorem start_regs_control1 (code : Nat) (regs : Nat → Nat) :
    start_regs code regs REG_CONTROL1 =
      merge_byte
        (merge_byte (regs REG_CONTROL1) CONTROL1_IBUSLIM (code <<< CONTROL1_IBUSLIM_SHIFT))
        (CONTROL1_TE ||| CONTROL1_CE_N) 0 := rfl

theorem start_regs_ibat (code : Nat) (regs : Nat → Nat) :
    start_regs code regs REG_IBAT =
      merge_byte (regs REG_IBAT) (IBAT_IOCHARGE ||| IBAT_RESET)
        (10 <<< IBAT_IOCHARGE_SHIFT) := rfl

theorem start_regs_vbus_control (code : Nat) (regs : Nat → Nat) :
    start_regs code regs REG_VBUS_CONTROL =
      merge_byte (regs REG_VBUS_CONTROL) VBUS_IO_LEVEL 0 := rfl

theorem start_regs_oreg (code : Nat) (regs : Nat → Nat) :
    start_regs code regs REG_OREG =
      merge_byte (regs REG_OREG) OREG_OREG (42 <<< OREG_OREG_SHIFT) := rfl

theorem start_regs_wd_control (code : Nat) (regs : Nat → Nat) :
    start_regs code regs REG_WD_CONTROL =
      merge_byte (regs REG_WD_CONTROL) WD_CONTROL_WD_DIS WD_CONTROL_WD_DIS := rfl

theorem start_regs_other (code : Nat) (regs : Nat → Nat) (r : Nat)
    (h0 : r ≠ REG_CONTROL0) (h1 : r ≠ REG_CONTROL1) (h2 : r ≠ REG_OREG)
    (h4 : r ≠ REG_IBAT) (h5 : r ≠ REG_VBUS_CONTROL) (h6 : r ≠ REG_WD_CONTROL) :
    start_regs code regs r = regs r := by
  unfold start_regs
  rw [merge_reg_other _ _ _ _ _ h1, merge_reg_other _ _ _ _ _ h6,
    merge_reg_other _ _ _ _ _ h2, merge_reg_other _ _ _ _ _ h5,
    merge_reg_other _ _ _ _ _ h4, merge_reg_other _ _ _ _ _ h1,
    merge_reg_other _ _ _ _ _ h0]

set_option maxRecDepth 1000000 in
theorem control1_cycle_aux : ∀ i : Fin 4, ∀ x : Fin 256,
    merge_byte
        (merge_byte
          (merge_byte
            (merge_byte
              (merge_byte x.val CONTROL1_IBUSLIM (i.val <<< CONTROL1_IBUSLIM_SHIFT))
              (CONTROL1_TE ||| CONTROL1_CE_N) 0)
            (CONTROL1_CE_N ||| CONTROL1_CE_N) CONTROL1_CE_N)
          CONTROL1_IBUSLIM (i.val <<< CONTROL1_IBUSLIM_SHIFT))
        (CONTROL1_TE ||| CONTROL1_CE_N) 0
      = merge_byte
          (merge_byte x.val CONTROL1_IBUSLIM (i.val <<< CONTROL1_IBUSLIM_SHIFT))
          (CONTROL1_TE ||| CONTROL1_CE_N) 0 := by
  decide

set_option maxRecDepth 1000000 in
theorem control1_start_aux : ∀ i : Fin 4, ∀ x : Fin 256,
    merge_byte (merge_byte x.val CONTROL1_IBUSLIM (i.val <<< CONTROL1_IBUSLIM_SHIFT))
        (CONTROL1_TE ||| CONTROL1_CE_N) 0 >>> 6 = i.val ∧
    merge_byte (merge_byte x.val CONTROL1_IBUSLIM (i.val <<< CONTROL1_IBUSLIM_SHIFT))
        (CONTROL1_TE ||| CONTROL1_CE_N) 0 &&& 0x0C = 0 ∧
    merge_byte (merge_byte x.val CONTROL1_IBUSLIM (i.val <<< CONTROL1_IBUSLIM_SHIFT))
        (CONTROL1_TE ||| CONTROL1_CE_N) 0 &&& 0x33 = x.val &&& 0x33 := by
  decide

set_option maxRecDepth 1000000 in
theorem start_bytes_aux : ∀ x : Fin 256,
    (merge_byte x.val CONTROL0_TMR_RST CONTROL0_TMR_RST &&& 0x80 = 0x80 ∧
      merge_byte x.val CONTROL0_TMR_RST CONTROL0_TMR_RST &&& 0x7F = x.val &&& 0x7F) ∧
    ((merge_byte x.val (IBAT_IOCHARGE ||| IBAT_RESET) (10 <<< IBAT_IOCHARGE_SHIFT) >>> 3)
        &&& 0xF = 10 ∧
      merge_byte x.val (IBAT_IOCHARGE ||| IBAT_RESET) (10 <<< IBAT_IOCHARGE_SHIFT)
        &&& 0x80 = 0 ∧
      merge_byte x.val (IBAT_IOCHARGE ||| IBAT_RESET) (10 <<< IBAT_IOCHARGE_SHIFT)
        &&& 0x07 = x.val &&& 0x07) ∧
    (merge_byte x.val VBUS_IO_LEVEL 0 &&& 0x20 = 0 ∧
      merge_byte x.val VBUS_IO_LEVEL 0 &&& 0xDF = x.val &&& 0xDF) ∧
    (merge_byte x.val OREG_OREG (42 <<< OREG_OREG_SHIFT) >>> 2 = 42 ∧
      merge_byte x.val OREG_OREG (42 <<< OREG_OREG_SHIFT) &&& 0x03 = x.val &&& 0x03) ∧
    (merge_byte x.val WD_CONTROL_WD_DIS WD_CONTROL_WD_DIS &&& 0x02 = 0x02 ∧
      merge_byte x.val WD_CONTROL_WD_DIS WD_CONTROL_WD_DIS &&& 0xFD = x.val &&& 0xFD) := by
  decide

theorem ibuslim_code_lt (limit : Int) (code : Nat)
    (hs : scan_down (fun k => ibuslim_vals.getD k 0) limit (ibuslim_vals.length - 1)
      = (code : Int)) : code < 4 := by
  rcases scan_down_cases (fun k => ibuslim_vals.getD k 0) limit (ibuslim_vals.length - 1)
    with ⟨h, _⟩ | ⟨i, hi, h, _, _⟩
  · rw [hs] at h
    omega
  · rw [hs] at h
    have h3 : ibuslim_vals.length - 1 = 2 := by decide
    omega

/-- A second `start_charging` after a `stop_charging` restores the registers
of the first. -/
theorem start_regs_cycle (code : Nat) (hc : code < 4) (regs : Nat → Nat) :
    start_regs code
        (merge_reg (start_regs code regs) REG_CONTROL1 (CONTROL1_CE_N ||| CONTROL1_CE_N)
          CONTROL1_CE_N)
      = start_regs code regs := by
  funext r
  have hne : ∀ q, q ≠ REG_CONTROL1 →
      merge_reg (start_regs code regs) REG_CONTROL1 (CONTROL1_CE_N ||| CONTROL1_CE_N)
        CONTROL1_CE_N q = start_regs code regs q :=
    fun q hq => merge_reg_other _ _ _ _ q hq
  by_cases h1 : r = REG_CONTROL1
  · rw [h1, start_regs_control1, start_regs_control1]
    simp only [merge_reg, if_true]
    rw [start_regs_control1, merge_byte_mod (regs REG_CONTROL1)]
    exact control1_cycle_aux ⟨code, hc⟩ ⟨regs REG_CONTROL1 % 256, Nat.mod_lt _ (by norm_num)⟩
  by_cases h0 : r = REG_CONTROL0
  · rw [h0, start_regs_control0, hne _ (by decide), start_regs_control0, merge_byte_idem]
  by_cases h2 : r = REG_OREG
  · rw [h2, start_regs_oreg, hne _ (by decide), start_regs_oreg, merge_byte_idem]
  by_cases h4 : r = REG_IBAT
  · rw [h4, start_regs_ibat, hne _ (by decide), start_regs_ibat, merge_byte_idem]
  by_cases h5 : r = REG_VBUS_CONTROL
  · rw [h5, start_regs_vbus_control, hne _ (by decide), start_regs_vbus_control,
      merge_byte_idem]
  by_cases h6 : r = REG_WD_CONTROL
  · rw [h6, start_regs_wd_control, hne _ (by decide), start_regs_wd_control,
      merge_byte_idem]
  rw [start_regs_other _ _ r h0 h1 h2 h4 h5 h6, hne r h1,
    start_regs_other _ _ r h0 h1 h2 h4 h5 h6]

/-- C9: with the registers as plain byte storage, outside factory mode, on a
bus without faults and with an upstream query that succeeds with a limit the
input-current scan accepts, the sequence `start_charging`; `stop_charging`;
`start_charging` succeeds at each call and ends in the same register file, and
the same `charging` = true, as the first `start_charging` alone. -/
theorem start_stop_start_same_registers (chip : fan5404x_chg)
    (hf : chip.factory_mode = false) (hh : ∀ e ∈ chip.client.outcomes, 0 ≤ e)
    (hrc : 0 ≤ chip.usb_psy.current_max_rc)
    (hacc : 0 ≤ scan_down (fun k => ibuslim_vals.getD k 0)
      (Int.tdiv chip.usb_psy.current_max 1000) (ibuslim_vals.length - 1)) :
    (start_charging chip).1 = 0 ∧
    (stop_charging (start_charging chip).2).1 = 0 ∧
    (start_charging (stop_charging (start_charging chip).2).2).1 = 0 ∧
    (start_charging (stop_charging (start_charging chip).2).2).2.client.regs
      = (start_charging chip).2.client.regs ∧
    (start_charging (stop_charging (start_charging chip).2).2).2.charging = true ∧
    (start_charging chip).2.charging = true := by
  obtain ⟨code, hs⟩ : ∃ code : Nat, scan_down (fun k => ibuslim_vals.getD k 0)
      (Int.tdiv chip.usb_psy.current_max 1000) (ibuslim_vals.length - 1) = (code : Int) :=
    ⟨_, (Int.toNat_of_nonneg hacc).symm⟩
  obtain ⟨c1, e1, r1, h1⟩ := start_charging_healthy chip code hf hh hrc hs
  obtain ⟨c2, e2, r2, h2⟩ := stop_charging_healthy
    { chip.withClient c1 with charging := true } hf h1
  obtain ⟨c3, e3, r3, h3⟩ := start_charging_healthy
    { ({ chip.withClient c1 with charging := true } : fan5404x_chg).withClient c2 with
      charging := false } code hf h2 hrc hs
  have q2 : c2.regs = merge_reg c1.regs REG_CONTROL1 (CONTROL1_CE_N ||| CONTROL1_CE_N)
    CONTROL1_CE_N := r2
  have q3 : c3.regs = start_regs code c2.regs := r3
  rw [e1]
  dsimp only
  rw [e2]
  dsimp only
  rw [e3]
  refine ⟨rfl, rfl, rfl, ?_, rfl, rfl⟩
  show c3.regs = c1.regs
  rw [q3, q2, r1]
  exact start_regs_cycle code (ibuslim_code_lt _ code hs) _

theorem start_stop_start_same_registers_witness :
    (start_charging (stop_charging (start_charging sampleChip).2).2).1 = 0 ∧
    (start_charging (stop_charging (start_charging sampleChip).2).2).2.client.regs
      = (start_charging sampleChip).2.client.regs ∧
    (start_charging (stop_charging (start_charging sampleChip).2).2).2.charging = true :=
  have h := start_stop_start_same_registers sampleChip rfl
    (by intro e he; cases he) (by decide) (by decide)
  ⟨h.2.2.1, h.2.2.2.1, h.2.2.2.2.1⟩

/-- C10: outside factory mode, on a bus without faults, with an upstream query
that succeeds and a limit `CURRENT_MAX / 1000` that the input-current scan
accepts with index `code`, `start_charging` returns 0 and leaves: `CONTROL0`
with bit 7 (`TMR_RST`) set; `CONTROL1` with `code` in bits 7:6 and bits 3
(`TE`) and 2 (`CE_N`) clear; `IBAT` with code 10 in bits 6:3 and bit 7
(`RESET`) clear; `VBUS_CONTROL` with bit 5 (`IO_LEVEL`) clear; `OREG` with
code 42 in bits 7:2; `WD_CONTROL` with bit 1 (`WD_DIS`) set; every other bit
of these six registers and every other register as before. -/
theorem start_charging_configuration (chip : fan5404x_chg) (code : Nat)
    (hf : chip.factory_mode = false) (hh : ∀ e ∈ chip.client.outcomes, 0 ≤ e)
    (hrc : 0 ≤ chip.usb_psy.current_max_rc)
    (hs : scan_down (fun k => ibuslim_vals.getD k 0)
      (Int.tdiv chip.usb_psy.current_max 1000) (ibuslim_vals.length - 1) = (code : Int)) :
    (start_charging chip).1 = 0 ∧
    ((start_charging chip).2.client.regs REG_CONTROL0 &&& 0x80 = 0x80 ∧
      (start_charging chip).2.client.regs REG_CONTROL0 &&& 0x7F
        = (chip.client.regs REG_CONTROL0 % 256) &&& 0x7F) ∧
    ((start_charging chip).2.client.regs REG_CONTROL1 >>> 6 = code ∧
      (start_charging chip).2.client.regs REG_CONTROL1 &&& 0x0C = 0 ∧
      (start_charging chip).2.client.regs REG_CONTROL1 &&& 0x33
        = (chip.client.regs REG_CONTROL1 % 256) &&& 0x33) ∧
    (((start_charging chip).2.client.regs REG_IBAT >>> 3) &&& 0xF = 10 ∧
      (start_charging chip).2.client.regs REG_IBAT &&& 0x80 = 0 ∧
      (start_charging chip).2.client.regs REG_IBAT &&& 0x07
        = (chip.client.regs REG_IBAT % 256) &&& 0x07) ∧
    ((start_charging chip).2.client.regs REG_VBUS_CONTROL &&& 0x20 = 0 ∧
      (start_charging chip).2.client.regs REG_VBUS_CONTROL &&& 0xDF
        = (chip.client.regs REG_VBUS_CONTROL % 256) &&& 0xDF) ∧
    ((start_charging chip).2.client.regs REG_OREG >>> 2 = 42 ∧
      (start_charging chip).2.client.regs REG_OREG &&& 0x03
        = (chip.client.regs REG_OREG % 256) &&& 0x03) ∧
    ((start_charging chip).2.client.regs REG_WD_CONTROL &&& 0x02 = 0x02 ∧
      (start_charging chip).2.client.regs REG_WD_CONTROL &&& 0xFD
        = (chip.client.regs REG_WD_CONTROL % 256) &&& 0xFD) ∧
    (∀ r, r ≠ REG_CONTROL0 → r ≠ REG_CONTROL1 → r ≠ REG_OREG → r ≠ REG_IBAT →
      r ≠ REG_VBUS_CONTROL → r ≠ REG_WD_CONTROL →
      (start_charging chip).2.client.regs r = chip.client.regs r) := by
  obtain ⟨c1, e1, r1, _⟩ := start_charging_healthy chip code hf hh hrc hs
  have hregs : (start_charging chip).2.client.regs = start_regs code chip.client.regs := by
    rw [e1]
    exact r1
  have hb : ∀ x : Nat, x % 256 < 256 := fun x => Nat.mod_lt _ (by norm_num)
  rw [hregs, e1]
  refine ⟨rfl, ?_, ?_, ?_, ?_, ?_, ?_, ?_⟩
  · rw [start_regs_control0, merge_byte_mod]
    exact (start_bytes_aux ⟨_, hb _⟩).1
  · rw [start_regs_control1, merge_byte_mod (chip.client.regs REG_CONTROL1)]
    exact control1_start_aux ⟨code, ibuslim_code_lt _ code hs⟩ ⟨_, hb _⟩
  · rw [start_regs_ibat, merge_byte_mod]
    exact (start_bytes_aux ⟨_, hb _⟩).2.1
  · rw [start_regs_vbus_control, merge_byte_mod]
    exact (start_bytes_aux ⟨_, hb _⟩).2.2.1
  · rw [start_regs_oreg, merge_byte_mod]
    exact (start_bytes_aux ⟨_, hb _⟩).2.2.2.1
  · rw [start_regs_wd_control, merge_byte_mod]
    exact (start_bytes_aux ⟨_, hb _⟩).2.2.2.2
  · intro r h0 h1 h2 h4 h5 h6
    exact start_regs_other code _ r h0 h1 h2 h4 h5 h6

theorem start_charging_configuration_witness :
    (start_charging sampleChip).1 = 0 ∧
    (start_charging sampleChip).2.client.regs REG_CONTROL1 >>> 6 = 1 ∧
    (start_charging sampleChip).2.client.regs REG_CONTROL1 &&& 0x0C = 0 ∧
    (start_charging sampleChip).2.client.regs REG_OREG >>> 2 = 42 ∧
    ((start_charging sampleChip).2.client.regs REG_IBAT >>> 3) &&& 0xF = 10 :=
  have h := start_charging_configuration sampleChip 1 rfl
    (by intro e he; cases he) (by decide) (by decide)
  ⟨h.1, h.2.2.1.1, h.2.2.1.2.1, h.2.2.2.2.2.1.1, h.2.2.2.1.1⟩

/-! ## State decoder -/

set_option maxRecDepth 1000000 in
/-- The fields that the decoders test, as quotients and remainders of the byte. -/
theorem decode_fields_aux : ∀ x : Fin 256,
    ((x.val &&& CONTROL0_STAT) >>> CONTROL0_STAT_SHIFT = x.val / 16 % 4) ∧
    ((x.val &&& CONTROL1_CE_N = 0) ↔ x.val / 4 % 2 = 0) ∧
    ((x.val &&& MONITOR0_LINCHG ≠ 0) ↔ x.val / 32 % 2 = 1) ∧
    ((x.val &&& IC_INFO_VENDOR_CODE = VENDOR_FAIRCHILD_VAL) ↔ x.val / 64 = 2) ∧
    (((x.val >>> CONTROL1_IBUSLIM_SHIFT) % 256) &&& CONTROL1_IBUSLIM_SHIFT_MASK
      = x.val / 64) := by
  decide

theorem decode_fields (x : Nat) :
    (((x % 256) &&& CONTROL0_STAT) >>> CONTROL0_STAT_SHIFT = x % 256 / 16 % 4) ∧
    (((x % 256) &&& CONTROL1_CE_N = 0) ↔ x % 256 / 4 % 2 = 0) ∧
    (((x % 256) &&& MONITOR0_LINCHG ≠ 0) ↔ x % 256 / 32 % 2 = 1) ∧
    (((x % 256) &&& IC_INFO_VENDOR_CODE = VENDOR_FAIRCHILD_VAL) ↔ x % 256 / 64 = 2) ∧
    ((((x % 256) >>> CONTROL1_IBUSLIM_SHIFT) % 256) &&& CONTROL1_IBUSLIM_SHIFT_MASK
      = x % 256 / 64) :=
  decode_fields_aux ⟨x % 256, Nat.mod_lt _ (by norm_num)⟩

/-- The handle after one more read of `reg` on the bus. -/
theorem fan5404x_read_ok (chip : fan5404x_chg) (reg val : Nat)
    (hr : 0 ≤ nextOutcome chip.client.outcomes) :
    fan5404x_read chip reg val =
      (0, chip.client.regs reg % 256,
        chip.withClient { regs := chip.client.regs, outcomes := chip.client.outcomes.tail,
                          log := BusOp.read reg :: chip.client.log }) :=
  read_ok chip reg val hr

theorem fan5404x_read_fail (chip : fan5404x_chg) (reg val : Nat)
    (hr : nextOutcome chip.client.outcomes < 0) :
    fan5404x_read chip reg val =
      (nextOutcome chip.client.outcomes, val,
        chip.withClient { regs := chip.client.regs, outcomes := chip.client.outcomes.tail,
                          log := BusOp.read reg :: chip.client.log }) :=
  read_fail chip reg val hr

theorem stat_read_ok (chip : fan5404x_chg) (hr : 0 ≤ nextOutcome chip.client.outcomes) :
    fan5404x_stat_read chip =
      (((chip.client.regs REG_CONTROL0 % 256 / 16 % 4 : Nat) : Int),
        chip.withClient { regs := chip.client.regs, outcomes := chip.client.outcomes.tail,
                          log := BusOp.read REG_CONTROL0 :: chip.client.log }) := by
  unfold fan5404x_stat_read
  simp only [fan5404x_read_ok chip REG_CONTROL0 0 hr, lt_irrefl, if_false,
    (decode_fields (chip.client.regs REG_CONTROL0)).1]

theorem stat_read_fail (chip : fan5404x_chg) (hr : nextOutcome chip.client.outcomes < 0) :
    fan5404x_stat_read chip =
      (nextOutcome chip.client.outcomes,
        chip.withClient { regs := chip.client.regs, outcomes := chip.client.outcomes.tail,
                          log := BusOp.read REG_CONTROL0 :: chip.client.log }) := by
  unfold fan5404x_stat_read
  simp only [fan5404x_read_fail chip REG_CONTROL0 0 hr, if_pos hr]

/-- C11: for every device state `fan5404x_get_prop_batt_status` returns what
the reference decoding gives for the two read outcomes and the two bytes:
Unknown if the `CONTROL0` read fails; otherwise Full if bits 5:4 of `CONTROL0`
are `0b10`; otherwise Unknown if the `CONTROL1` read fails; otherwise Charging
if bits 5:4 are `0b01` and bit 2 (`CE_N`) of `CONTROL1` is clear; otherwise
Discharging. -/
theorem get_prop_batt_status_eq_reference (chip : fan5404x_chg) :
    (fan5404x_get_prop_batt_status chip).1 =
      batt_status_reference (decide (nextOutcome chip.client.outcomes < 0))
        (chip.client.regs REG_CONTROL0 % 256)
        (decide (nextOutcome chip.client.outcomes.tail < 0))
        (chip.client.regs REG_CONTROL1 % 256) := by
  by_cases h0 : nextOutcome chip.client.outcomes < 0
  · unfold fan5404x_get_prop_batt_status
    simp only [stat_read_fail chip h0, if_pos h0]
    simp [batt_status_reference, h0]
  · have hr0 := not_lt.mp h0
    have hs : ¬ (((chip.client.regs REG_CONTROL0 % 256 / 16 % 4 : Nat) : Int) < 0) := by
      omega
    unfold fan5404x_get_prop_batt_status
    simp only [stat_read_ok chip hr0, if_neg hs]
    by_cases hfull : chip.client.regs REG_CONTROL0 % 256 / 16 % 4 = 2
    · have hf2 : ((chip.client.regs REG_CONTROL0 % 256 / 16 % 4 : Nat) : Int)
          = STAT_CHARGE_DONE := by
        simp only [STAT_CHARGE_DONE, hfull]
        rfl
      simp only [if_pos hf2]
      simp [batt_status_reference, h0, hfull]
    · have hf2 : ¬ ((chip.client.regs REG_CONTROL0 % 256 / 16 % 4 : Nat) : Int)
          = STAT_CHARGE_DONE := by
        simp only [STAT_CHARGE_DONE]
        omega
      simp only [if_neg hf2]
      by_cases h1 : nextOutcome chip.client.outcomes.tail < 0
      · rw [fan5404x_read_fail _ REG_CONTROL1 0 h1]
        simp only [fan5404x_chg.withClient, if_pos h1]
        simp [batt_status_reference, h0, hfull, h1]
      · rw [fan5404x_read_ok _ REG_CONTROL1 0 (not_lt.mp h1)]
        simp only [fan5404x_chg.withClient, lt_irrefl, if_false,
          (decode_fields (chip.client.regs REG_CONTROL1)).2.1]
        have hpwm : (((chip.client.regs REG_CONTROL0 % 256 / 16 % 4 : Nat) : Int)
            = STAT_PWM_ENABLED) ↔ chip.client.regs REG_CONTROL0 % 256 / 16 % 4 = 1 := by
          simp only [STAT_PWM_ENABLED]
          omega
        simp only [hpwm, batt_status_reference, h0, hfull, h1, decide_False,
          Bool.false_eq_true, if_false]
        split_ifs <;> rfl

/-- The charge type on the path where the status read succeeds: the handle
after the `CONTROL0` read, then the `MONITOR0` read. -/
theorem charge_type_after_stat (chip : fan5404x_chg)
    (h0 : 0 ≤ nextOutcome chip.client.outcomes) :
    fan5404x_get_prop_charge_type chip =
      (let s : Int := ((chip.client.regs REG_CONTROL0 % 256 / 16 % 4 : Nat) : Int)
       let chip1 := chip.withClient
         { regs := chip.client.regs, outcomes := chip.client.outcomes.tail,
           log := BusOp.read REG_CONTROL0 :: chip.client.log }
       let m := fan5404x_read chip1 REG_MONITOR0 0
       if m.1 < 0 then (POWER_SUPPLY_CHARGE_TYPE_TRICKLE, m.2.2)
       else if m.2.1 &&& MONITOR0_LINCHG ≠ 0 then (POWER_SUPPLY_CHARGE_TYPE_TRICKLE, m.2.2)
       else
         let r := fan5404x_read m.2.2 REG_CONTROL1 0
         if r.1 < 0 then (POWER_SUPPLY_CHARGE_TYPE_UNKNOWN, r.2.2)
         else if s = STAT_PWM_ENABLED ∧ r.2.1 &&& CONTROL1_CE_N = 0 then
           (POWER_SUPPLY_CHARGE_TYPE_FAST, r.2.2)
         else (POWER_SUPPLY_CHARGE_TYPE_NONE, r.2.2)) := by
  have hs : ¬ (((chip.client.regs REG_CONTROL0 % 256 / 16 % 4 : Nat) : Int) < 0) := by
    omega
  unfold fan5404x_get_prop_charge_type
  simp only [stat_read_ok chip h0, if_neg hs]

/-- C12: when the three register reads succeed, `fan5404x_get_prop_charge_type`
returns Trickle if bit 5 (`LINCHG`) of `MONITOR0` is set, whatever the status
field is; otherwise Fast if bits 5:4 of `CONTROL0` are `0b01` and bit 2
(`CE_N`) of `CONTROL1` is clear; otherwise None. -/
theorem get_prop_charge_type_decodes (chip : fan5404x_chg)
    (h0 : 0 ≤ nextOutcome chip.client.outcomes)
    (h1 : 0 ≤ nextOutcome chip.client.outcomes.tail)
    (h2 : 0 ≤ nextOutcome chip.client.outcomes.tail.tail) :
    (fan5404x_get_prop_charge_type chip).1 =
      if chip.client.regs REG_MONITOR0 % 256 / 32 % 2 = 1 then
        POWER_SUPPLY_CHARGE_TYPE_TRICKLE
      else if chip.client.regs REG_CONTROL0 % 256 / 16 % 4 = 1 ∧
          chip.client.regs REG_CONTROL1 % 256 / 4 % 2 = 0 then
        POWER_SUPPLY_CHARGE_TYPE_FAST
      else POWER_SUPPLY_CHARGE_TYPE_NONE := by
  rw [charge_type_after_stat chip h0]
  dsimp only
  rw [fan5404x_read_ok _ REG_MONITOR0 0 h1]
  simp only [fan5404x_chg.withClient, lt_irrefl, if_false,
    (decode_fields (chip.client.regs REG_MONITOR0)).2.2.1]
  by_cases hlin : chip.client.regs REG_MONITOR0 % 256 / 32 % 2 = 1
  · simp only [if_pos hlin]
  · simp only [if_neg hlin]
    have hpwm : (((chip.client.regs REG_CONTROL0 % 256 / 16 % 4 : Nat) : Int)
        = STAT_PWM_ENABLED) ↔ chip.client.regs REG_CONTROL0 % 256 / 16 % 4 = 1 := by
      simp only [STAT_PWM_ENABLED]
      omega
    have hrd := fan5404x_read_ok
      ({ client := { regs := chip.client.regs, outcomes := chip.client.outcomes.tail.tail,
                     log := BusOp.read REG_MONITOR0 :: BusOp.read REG_CONTROL0 ::
                       chip.client.log },
         usb_psy := chip.usb_psy, fake_battery_soc := chip.fake_battery_soc,
         factory_mode := chip.factory_mode, chg_enabled := chip.chg_enabled,
         usb_present := chip.usb_present, batt_present := chip.batt_present,
         chg_done_batt_full := chip.chg_done_batt_full, charging := chip.charging,
         batt_hot := chip.batt_hot, batt_cold := chip.batt_cold,
         batt_warm := chip.batt_warm, batt_cool := chip.batt_cool,
         peek_poke_address := chip.peek_poke_address } : fan5404x_chg) REG_CONTROL1 0 h2
    rw [hrd]
    simp only [lt_irrefl, if_false, hpwm,
      (decode_fields (chip.client.regs REG_CONTROL1)).2.1]
    split_ifs <;> rfl

theorem get_prop_charge_type_decodes_witness :
    (fan5404x_get_prop_charge_type (chipWith chargingRegs [])).1
      = POWER_SUPPLY_CHARGE_TYPE_FAST :=
  (get_prop_charge_type_decodes (chipWith chargingRegs []) (by decide) (by decide)
    (by decide)).trans (by decide)

/-- C13 (amended): when the `CONTROL0` status read succeeds and the `MONITOR0`
read fails, `fan5404x_get_prop_charge_type` returns Trickle, whatever the
registers hold and whatever a `CONTROL1` read would give; when the `CONTROL0`
read fails it returns Unknown with that one read on the bus, so `MONITOR0` is
not read at all. -/
theorem get_prop_charge_type_monitor_failure (chip : fan5404x_chg) :
    (0 ≤ nextOutcome chip.client.outcomes → nextOutcome chip.client.outcomes.tail < 0 →
      (fan5404x_get_prop_charge_type chip).1 = POWER_SUPPLY_CHARGE_TYPE_TRICKLE) ∧
    (nextOutcome chip.client.outcomes < 0 →
      (fan5404x_get_prop_charge_type chip).1 = POWER_SUPPLY_CHARGE_TYPE_UNKNOWN ∧
      (fan5404x_get_prop_charge_type chip).2.client.log
        = BusOp.read REG_CONTROL0 :: chip.client.log) := by
  refine ⟨fun h0 h1 => ?_, fun h0 => ?_⟩
  · rw [charge_type_after_stat chip h0]
    dsimp only
    rw [fan5404x_read_fail _ REG_MONITOR0 0 h1]
    simp only [fan5404x_chg.withClient, if_pos h1]
  · have e : fan5404x_get_prop_charge_type chip =
        (POWER_SUPPLY_CHARGE_TYPE_UNKNOWN,
          chip.withClient { regs := chip.client.regs, outcomes := chip.client.outcomes.tail,
                            log := BusOp.read REG_CONTROL0 :: chip.client.log }) := by
      unfold fan5404x_get_prop_charge_type
      simp only [stat_read_fail chip h0, if_pos h0]
    rw [e]
    exact ⟨rfl, rfl⟩

theorem get_prop_charge_type_monitor_failure_witness :
    (fan5404x_get_prop_charge_type (chipWith chargingRegs [0, -5, -5])).1
      = POWER_SUPPLY_CHARGE_TYPE_TRICKLE ∧
    (fan5404x_get_prop_charge_type (chipWith chargingRegs [-5, -5])).1
      = POWER_SUPPLY_CHARGE_TYPE_UNKNOWN :=
  ⟨(get_prop_charge_type_monitor_failure (chipWith chargingRegs [0, -5, -5])).1
      (by decide) (by decide),
    ((get_prop_charge_type_monitor_failure (chipWith chargingRegs [-5, -5])).2
      (by decide)).1⟩

/-- C13, as first stated, fails when the `CONTROL0` read fails too: with the
transfers of the `CONTROL0` and of the `MONITOR0` read both scripted to fail,
the function returns Unknown, not Trickle, after a single read of `CONTROL0`. -/
theorem get_prop_charge_type_unknown_before_monitor :
    nextOutcome (chipWith chargingRegs [-5, -5]).client.outcomes.tail < 0 ∧
    (fan5404x_get_prop_charge_type (chipWith chargingRegs [-5, -5])).1
      = POWER_SUPPLY_CHARGE_TYPE_UNKNOWN ∧
    (fan5404x_get_prop_charge_type (chipWith chargingRegs [-5, -5])).1
      ≠ POWER_SUPPLY_CHARGE_TYPE_TRICKLE ∧
    (fan5404x_get_prop_charge_type (chipWith chargingRegs [-5, -5])).2.client.log
      = [BusOp.read REG_CONTROL0] := by
  decide

/-- C14: `fan5404x_get_prop_batt_health` is Overheat when `batt_hot` is set,
else Cold when `batt_cold` is, else Warm when `batt_warm` is, else Cool when
`batt_cool` is, else Good; it is never Unknown, and it is the same on every
bus endpoint, so no register content enters it. -/
theorem get_prop_batt_health_precedence (chip : fan5404x_chg) :
    (chip.batt_hot = true →
      fan5404x_get_prop_batt_health chip = POWER_SUPPLY_HEALTH_OVERHEAT) ∧
    (chip.batt_hot = false → chip.batt_cold = true →
      fan5404x_get_prop_batt_health chip = POWER_SUPPLY_HEALTH_COLD) ∧
    (chip.batt_hot = false → chip.batt_cold = false → chip.batt_warm = true →
      fan5404x_get_prop_batt_health chip = POWER_SUPPLY_HEALTH_WARM) ∧
    (chip.batt_hot = false → chip.batt_cold = false → chip.batt_warm = false →
      chip.batt_cool = true →
      fan5404x_get_prop_batt_health chip = POWER_SUPPLY_HEALTH_COOL) ∧
    (chip.batt_hot = false → chip.batt_cold = false → chip.batt_warm = false →
      chip.batt_cool = false →
      fan5404x_get_prop_batt_health chip = POWER_SUPPLY_HEALTH_GOOD) ∧
    fan5404x_get_prop_batt_health chip ≠ POWER_SUPPLY_HEALTH_UNKNOWN ∧
    (∀ c : i2c_client,
      fan5404x_get_prop_batt_health (chip.withClient c)
        = fan5404x_get_prop_batt_health chip) := by
  refine ⟨?_, ?_, ?_, ?_, ?_, ?_, fun _ => rfl⟩
  · intro h
    simp [fan5404x_get_prop_batt_health, h]
  · intro h1 h2
    simp [fan5404x_get_prop_batt_health, h1, h2]
  · intro h1 h2 h3
    simp [fan5404x_get_prop_batt_health, h1, h2, h3]
  · intro h1 h2 h3 h4
    simp [fan5404x_get_prop_batt_health, h1, h2, h3, h4]
  · intro h1 h2 h3 h4
    simp [fan5404x_get_prop_batt_health, h1, h2, h3, h4]
  · unfold fan5404x_get_prop_batt_health
    split_ifs <;> simp

theorem get_prop_batt_health_precedence_witness :
    fan5404x_get_prop_batt_health
        { sampleChip with batt_hot := true, batt_cold := true, batt_cool := true }
      = POWER_SUPPLY_HEALTH_OVERHEAT ∧
    fan5404x_get_prop_batt_health { sampleChip with batt_cold := true, batt_warm := true }
      = POWER_SUPPLY_HEALTH_COLD ∧
    fan5404x_get_prop_batt_health { sampleChip with batt_warm := true, batt_cool := true }
      = POWER_SUPPLY_HEALTH_WARM ∧
    fan5404x_get_prop_batt_health { sampleChip with batt_cool := true }
      = POWER_SUPPLY_HEALTH_COOL ∧
    fan5404x_get_prop_batt_health sampleChip = POWER_SUPPLY_HEALTH_GOOD :=
  ⟨(get_prop_batt_health_precedence
      { sampleChip with batt_hot := true, batt_cold := true, batt_cool := true }).1 rfl,
    (get_prop_batt_health_precedence
      { sampleChip with batt_cold := true, batt_warm := true }).2.1 rfl rfl,
    (get_prop_batt_health_precedence
      { sampleChip with batt_warm := true, batt_cool := true }).2.2.1 rfl rfl rfl,
    (get_prop_batt_health_precedence
      { sampleChip with batt_cool := true }).2.2.2.1 rfl rfl rfl rfl,
    (get_prop_batt_health_precedence sampleChip).2.2.2.2.1 rfl rfl rfl rfl⟩

/-- C15: after `fan5404x_set_prop_batt_health chip h`, whatever the flags were,
`batt_hot` is set exactly when `h` is Overheat, `batt_cold` exactly when `h` is
Cold, `batt_warm` exactly when `h` is Warm, `batt_cool` exactly when `h` is
Cool, so at most one flag is set and none for any other `h`; a following
`fan5404x_get_prop_batt_health` returns `h` for these four values and Good for
any other; setting Overheat and then Cool reads back Cool. -/
theorem set_prop_batt_health_exclusive (chip : fan5404x_chg) (h : power_supply_health) :
    (fan5404x_set_prop_batt_health chip h).1 = 0 ∧
    (fan5404x_set_prop_batt_health chip h).2.batt_hot
      = decide (h = POWER_SUPPLY_HEALTH_OVERHEAT) ∧
    (fan5404x_set_prop_batt_health chip h).2.batt_cold
      = decide (h = POWER_SUPPLY_HEALTH_COLD) ∧
    (fan5404x_set_prop_batt_health chip h).2.batt_warm
      = decide (h = POWER_SUPPLY_HEALTH_WARM) ∧
    (fan5404x_set_prop_batt_health chip h).2.batt_cool
      = decide (h = POWER_SUPPLY_HEALTH_COOL) ∧
    List.count true
        [(fan5404x_set_prop_batt_health chip h).2.batt_hot,
         (fan5404x_set_prop_batt_health chip h).2.batt_cold,
         (fan5404x_set_prop_batt_health chip h).2.batt_warm,
         (fan5404x_set_prop_batt_health chip h).2.batt_cool] ≤ 1 ∧
    fan5404x_get_prop_batt_health (fan5404x_set_prop_batt_health chip h).2
      = (if h = POWER_SUPPLY_HEALTH_OVERHEAT ∨ h = POWER_SUPPLY_HEALTH_COLD ∨
            h = POWER_SUPPLY_HEALTH_WARM ∨ h = POWER_SUPPLY_HEALTH_COOL then h
         else POWER_SUPPLY_HEALTH_GOOD) ∧
    fan5404x_get_prop_batt_health
        (fan5404x_set_prop_batt_health
          (fan5404x_set_prop_batt_health chip POWER_SUPPLY_HEALTH_OVERHEAT).2
          POWER_SUPPLY_HEALTH_COOL).2
      = POWER_SUPPLY_HEALTH_COOL := by
  cases h <;>
    simp [fan5404x_set_prop_batt_health, fan5404x_get_prop_batt_health]

/-- C16: in factory mode `__fan5404x_write` returns 0 and leaves the whole
handle, bus log included, as it was; so a `fan5404x_masked_write` whose read
succeeds returns 0 with only that read on the bus and every register
unchanged. -/
theorem factory_mode_suppresses_writes (chip : fan5404x_chg)
    (hf : chip.factory_mode = true) :
    (∀ reg val : Nat, __fan5404x_write chip reg val = (0, chip)) ∧
    (∀ reg mask val : Nat, 0 ≤ nextOutcome chip.client.outcomes →
      (fan5404x_masked_write chip reg mask val).1 = 0 ∧
      (fan5404x_masked_write chip reg mask val).2.client.regs = chip.client.regs ∧
      (fan5404x_masked_write chip reg mask val).2.client.log
        = BusOp.read reg :: chip.client.log) := by
  refine ⟨?_, ?_⟩
  · intro reg val
    simp [__fan5404x_write, hf]
  · intro reg mask val hr
    rw [masked_write_factory chip reg mask val hf hr]
    exact ⟨rfl, rfl, rfl⟩

theorem factory_mode_suppresses_writes_witness :
    __fan5404x_write factoryChip REG_CONTROL1 0xFF = (0, factoryChip) ∧
    (fan5404x_masked_write factoryChip REG_CONTROL1 0xC0 0x40).1 = 0 ∧
    (fan5404x_masked_write factoryChip REG_CONTROL1 0xC0 0x40).2.client.regs
      = factoryChip.client.regs ∧
    (fan5404x_masked_write factoryChip REG_CONTROL1 0xC0 0x40).2.client.log
      = BusOp.read REG_CONTROL1 :: factoryChip.client.log :=
  ⟨(factory_mode_suppresses_writes factoryChip rfl).1 REG_CONTROL1 0xFF,
    (factory_mode_suppresses_writes factoryChip rfl).2 REG_CONTROL1 0xC0 0x40 (by decide)⟩

/-! ## Diagnostic transport -/

theorem masked_write_fac_read_fail (chip : fan5404x_chg) (reg mask val : Nat)
    (hr : nextOutcome chip.client.outcomes < 0) :
    fan5404x_masked_write_fac chip reg mask val =
      (nextOutcome chip.client.outcomes,
        chip.withClient { regs := chip.client.regs, outcomes := chip.client.outcomes.tail,
                          log := BusOp.read reg :: chip.client.log }) := by
  unfold fan5404x_masked_write_fac
  simp only [read_fail chip reg 0 hr, if_pos hr]

theorem masked_write_fac_write_fail (chip : fan5404x_chg) (reg mask val : Nat)
    (hr : 0 ≤ nextOutcome chip.client.outcomes)
    (hw : nextOutcome chip.client.outcomes.tail < 0) :
    fan5404x_masked_write_fac chip reg mask val =
      (nextOutcome chip.client.outcomes.tail,
        chip.withClient
          { regs := chip.client.regs, outcomes := chip.client.outcomes.tail.tail,
            log := BusOp.write reg
                ((chip.client.regs reg % 256 &&& (255 ^^^ (mask % 256))) |||
                  ((val % 256) &&& (mask % 256))) ::
              BusOp.read reg :: chip.client.log }) := by
  unfold fan5404x_masked_write_fac
  simp [read_ok chip reg 0 hr, __fan5404x_write_fac, i2c_smbus_write_byte_data,
    fan5404x_chg.withClient, hw, Nat.mod_eq_of_lt (byte_lt _ _ _)]

theorem masked_write_fac_ok (chip : fan5404x_chg) (reg mask val : Nat)
    (hr : 0 ≤ nextOutcome chip.client.outcomes)
    (hw : 0 ≤ nextOutcome chip.client.outcomes.tail) :
    fan5404x_masked_write_fac chip reg mask val =
      (0,
        chip.withClient
          { regs := fun r =>
              if r = reg then
                (chip.client.regs reg % 256 &&& (255 ^^^ (mask % 256))) |||
                  ((val % 256) &&& (mask % 256))
              else chip.client.regs r,
            outcomes := chip.client.outcomes.tail.tail,
            log := BusOp.write reg
                ((chip.client.regs reg % 256 &&& (255 ^^^ (mask % 256))) |||
                  ((val % 256) &&& (mask % 256))) ::
              BusOp.read reg :: chip.client.log }) := by
  unfold fan5404x_masked_write_fac
  simp [read_ok chip reg 0 hr, __fan5404x_write_fac, i2c_smbus_write_byte_data,
    fan5404x_chg.withClient, not_lt.mpr hw, Nat.mod_eq_of_lt (byte_lt _ _ _)]

/-- C17: for every handle, register, mask, value and bus script, whatever
`factory_mode` is set to, `fan5404x_masked_write_fac` returns the code and
leaves the bus endpoint (registers, remaining script, transfers issued) that
`fan5404x_masked_write` gives with `factory_mode` off, and it leaves
`factory_mode` as it was. -/
theorem masked_write_fac_ignores_factory_mode (chip : fan5404x_chg) (reg mask val : Nat)
    (b : Bool) :
    (fan5404x_masked_write_fac { chip with factory_mode := b } reg mask val).1
      = (fan5404x_masked_write { chip with factory_mode := false } reg mask val).1 ∧
    (fan5404x_masked_write_fac { chip with factory_mode := b } reg mask val).2.client
      = (fan5404x_masked_write { chip with factory_mode := false } reg mask val).2.client ∧
    (fan5404x_masked_write_fac { chip with factory_mode := b } reg mask val).2.factory_mode
      = b := by
  by_cases hr : nextOutcome chip.client.outcomes < 0
  · rw [masked_write_fac_read_fail { chip with factory_mode := b } reg mask val hr,
      masked_write_read_fail { chip with factory_mode := false } reg mask val hr]
    exact ⟨rfl, rfl, rfl⟩
  · have hr0 : 0 ≤ nextOutcome chip.client.outcomes := not_lt.mp hr
    by_cases hw : nextOutcome chip.client.outcomes.tail < 0
    · rw [masked_write_fac_write_fail { chip with factory_mode := b } reg mask val hr0 hw,
        masked_write_write_fail { chip with factory_mode := false } reg mask val rfl hr0 hw]
      exact ⟨rfl, rfl, rfl⟩
    · rw [masked_write_fac_ok { chip with factory_mode := b } reg mask val hr0
          (not_lt.mp hw),
        masked_write_ok { chip with factory_mode := false } reg mask val rfl hr0
          (not_lt.mp hw)]
      exact ⟨rfl, rfl, rfl⟩

/-- C18: a `CONTROL1` byte `0xC0` gives `force_chg_iusb_show` the index
`(0xC0 >> 6) & 3 = 3`, which is the length of `ibuslim_vals`, not an index of
it, so the table read is out of bounds; and for a byte with code 0 the value
reported is `INT_MAX`, not 100. -/
theorem force_chg_iusb_show_index_out_of_range :
    ((0xC0 >>> CONTROL1_IBUSLIM_SHIFT) % 256) &&& CONTROL1_IBUSLIM_SHIFT_MASK = 3 ∧
    ibuslim_vals.length = 3 ∧
    (force_chg_iusb_show (chipWith (fun _ => 0xC0) [])).1 = none ∧
    (force_chg_iusb_show (chipWith (fun _ => 0x00) [])).1 = some INT_MAX := by
  decide

/-! ## Chip identification and probe -/

theorem read_chip_id_read_fail (chip : fan5404x_chg) (val : Nat)
    (hr : nextOutcome chip.client.outcomes < 0) :
    (fan5404x_read_chip_id chip val).1 = nextOutcome chip.client.outcomes := by
  have hne : nextOutcome chip.client.outcomes ≠ 0 := by omega
  unfold fan5404x_read_chip_id
  simp only [fan5404x_read_fail chip REG_IC_INFO val hr, if_pos hne]

theorem read_chip_id_read_ok (chip : fan5404x_chg) (val : Nat)
    (hr : 0 ≤ nextOutcome chip.client.outcomes) :
    (fan5404x_read_chip_id chip val).1 =
      if chip.client.regs REG_IC_INFO % 256 / 64 = 2 then 0 else -EINVAL := by
  unfold fan5404x_read_chip_id
  simp only [fan5404x_read_ok chip REG_IC_INFO val hr, ne_eq, not_true_eq_false, if_false,
    (decode_fields (chip.client.regs REG_IC_INFO)).2.2.2.1]
  split_ifs <;> rfl

/-- C19: `fan5404x_read_chip_id` returns 0 exactly when the `IC_INFO` read
succeeds and bits 7:6 of the byte are `0b10`; a failed read returns the error
of the read, any other vendor code returns `-EINVAL`; and whenever it returns
non-zero, `fan5404x_charger_probe` returns `-ENODEV` with nothing registered. -/
theorem read_chip_id_accepts_fairchild_only (chip : fan5404x_chg) (val : Nat) :
    ((fan5404x_read_chip_id chip val).1 = 0 ↔
      (0 ≤ nextOutcome chip.client.outcomes ∧
        chip.client.regs REG_IC_INFO % 256 / 64 = 2)) ∧
    ((chip.client.regs REG_IC_INFO % 256 / 64 = 2) ↔
      (chip.client.regs REG_IC_INFO % 256) &&& 0xC0 = 0x80) ∧
    (nextOutcome chip.client.outcomes < 0 →
      (fan5404x_read_chip_id chip val).1 = nextOutcome chip.client.outcomes) ∧
    (0 ≤ nextOutcome chip.client.outcomes →
      chip.client.regs REG_IC_INFO % 256 / 64 ≠ 2 →
      (fan5404x_read_chip_id chip val).1 = -EINVAL) ∧
    (∀ (α : Type) (client : i2c_client) (psy : power_supply)
        (rest : fan5404x_chg → Int × List α),
      (fan5404x_read_chip_id (probe_chip client psy) 0).1 ≠ 0 →
      fan5404x_charger_probe client (some psy) true rest = (-ENODEV, [])) := by
  refine ⟨?_, ?_, ?_, ?_, ?_⟩
  · by_cases hr : nextOutcome chip.client.outcomes < 0
    · rw [read_chip_id_read_fail chip val hr]
      constructor
      · intro h
        omega
      · intro h
        omega
    · rw [read_chip_id_read_ok chip val (not_lt.mp hr)]
      by_cases hv : chip.client.regs REG_IC_INFO % 256 / 64 = 2
      · simp only [if_pos hv, true_iff]
        exact ⟨not_lt.mp hr, hv⟩
      · simp only [if_neg hv, EINVAL]
        constructor
        · intro h
          omega
        · intro h
          exact absurd h.2 hv
  · exact (decode_fields (chip.client.regs REG_IC_INFO)).2.2.2.1.symm
  · exact read_chip_id_read_fail chip val
  · intro hr hv
    rw [read_chip_id_read_ok chip val hr, if_neg hv]
  · intro α client psy rest h
    simp only [fan5404x_charger_probe, Bool.not_true, Bool.false_eq_true, if_false,
      if_pos h]

theorem read_chip_id_accepts_fairchild_only_witness :
    (fan5404x_read_chip_id faultyChip 0).1 = -5 ∧
    (fan5404x_read_chip_id (chipWith (fun _ => 0x40) []) 0).1 = -EINVAL ∧
    fan5404x_charger_probe (α := Nat) (chipWith (fun _ => 0x40) []).client
        (some sampleChip.usb_psy) true (fun _ => (0, [1]))
      = (-ENODEV, []) :=
  ⟨((read_chip_id_accepts_fairchild_only faultyChip 0).2.2.1 (by decide)).trans
      (by decide),
    (read_chip_id_accepts_fairchild_only (chipWith (fun _ => 0x40) []) 0).2.2.2.1
      (by decide) (by decide),
    (read_chip_id_accepts_fairchild_only sampleChip 0).2.2.2.2 Nat
      (chipWith (fun _ => 0x40) []).client sampleChip.usb_psy (fun _ => (0, [1]))
      (by decide)⟩

/-! ## Lock discipline -/

/-- The bus log of a masked write grows by the transfers of its events. -/
theorem masked_write_log_events (chip : fan5404x_chg) (reg mask val : Nat) :
    (fan5404x_masked_write chip reg mask val).2.client.log =
      (bus_transfers (fan5404x_masked_write_events chip reg mask val)).reverse ++
        chip.client.log := by
  by_cases hr : nextOutcome chip.client.outcomes < 0
  · rw [masked_write_read_fail chip reg mask val hr]
    simp [fan5404x_masked_write_events, read_fail chip reg 0 hr, hr, bus_transfers,
      __fan5404x_read_events, fan5404x_chg.withClient]
  · have hr0 : 0 ≤ nextOutcome chip.client.outcomes := not_lt.mp hr
    cases hf : chip.factory_mode with
    | true =>
      rw [masked_write_factory chip reg mask val hf hr0]
      simp [fan5404x_masked_write_events, read_ok chip reg 0 hr0, bus_transfers,
        __fan5404x_read_events, __fan5404x_write_events, fan5404x_chg.withClient, hf]
    | false =>
      by_cases hw : nextOutcome chip.client.outcomes.tail < 0
      · rw [masked_write_write_fail chip reg mask val hf hr0 hw]
        simp [fan5404x_masked_write_events, read_ok chip reg 0 hr0, bus_transfers,
          __fan5404x_read_events, __fan5404x_write_events, fan5404x_chg.withClient, hf,
          Nat.mod_eq_of_lt (byte_lt _ _ _)]
      · rw [masked_write_ok chip reg mask val hf hr0 (not_lt.mp hw)]
        simp [fan5404x_masked_write_events, read_ok chip reg 0 hr0, bus_transfers,
          __fan5404x_read_events, __fan5404x_write_events, fan5404x_chg.withClient, hf,
          Nat.mod_eq_of_lt (byte_lt _ _ _)]

/-- The bus log of `set_reg` grows by the transfer of its events. -/
theorem set_reg_log_events (chip : fan5404x_chg) (val : Nat) :
    (set_reg chip val).2.client.log =
      (bus_transfers (set_reg_events chip val)).reverse ++ chip.client.log := by
  by_cases hw : nextOutcome chip.client.outcomes < 0
  · simp [set_reg, set_reg_events, __fan5404x_write_fac, __fan5404x_write_fac_events,
      i2c_smbus_write_byte_data, bus_transfers, fan5404x_chg.withClient, hw]
  · simp [set_reg, set_reg_events, __fan5404x_write_fac, __fan5404x_write_fac_events,
      i2c_smbus_write_byte_data, bus_transfers, fan5404x_chg.withClient, hw]

/-- C20: started with the lock free, the plain read, the masked write and the
diagnostic masked write make every transfer with `read_write_lock` held and end
with the lock released on every path; `set_reg` makes its bus write, the one
transfer that reaches the log, without taking the lock. -/
theorem set_reg_writes_without_lock (chip : fan5404x_chg) (reg mask val : Nat) :
    lock_run false (fan5404x_read_events reg) = some false ∧
    lock_run false (fan5404x_masked_write_events chip reg mask val) = some false ∧
    lock_run false (fan5404x_masked_write_fac_events chip reg mask val) = some false ∧
    set_reg_events chip val
      = [LockEvent.transfer (BusOp.write chip.peek_poke_address (val % 256))] ∧
    lock_run false (set_reg_events chip val) = none ∧
    (set_reg chip val).2.client.log
      = BusOp.write chip.peek_poke_address (val % 256) :: chip.client.log := by
  refine ⟨rfl, ?_, ?_, ?_, rfl, ?_⟩
  · unfold fan5404x_masked_write_events __fan5404x_write_events __fan5404x_read_events
    dsimp only
    split_ifs <;> rfl
  · unfold fan5404x_masked_write_fac_events __fan5404x_write_fac_events
      __fan5404x_read_events
    dsimp only
    split_ifs <;> rfl
  · simp [set_reg_events, __fan5404x_write_fac_events]
  · rw [set_reg_log_events]
    simp [set_reg_events, __fan5404x_write_fac_events, bus_transfers]

/-! ## Event dispatcher -/

/-- A read leaves the same handle whether it succeeds or fails. -/
theorem fan5404x_read_state (chip : fan5404x_chg) (reg val : Nat) :
    (fan5404x_read chip reg val).2.2 =
      chip.withClient { regs := chip.client.regs, outcomes := chip.client.outcomes.tail,
                        log := BusOp.read reg :: chip.client.log } := by
  by_cases hr : nextOutcome chip.client.outcomes < 0
  · rw [fan5404x_read_fail chip reg val hr]
  · rw [fan5404x_read_ok chip reg val (not_lt.mp hr)]

theorem stat_read_state (chip : fan5404x_chg) :
    (fan5404x_stat_read chip).2 =
      chip.withClient { regs := chip.client.regs, outcomes := chip.client.outcomes.tail,
                        log := BusOp.read REG_CONTROL0 :: chip.client.log } := by
  by_cases hr : nextOutcome chip.client.outcomes < 0
  · rw [stat_read_fail chip hr]
  · rw [stat_read_ok chip (not_lt.mp hr)]

theorem fault_read_state (chip : fan5404x_chg) :
    (fan5404x_fault_read chip).2 =
      chip.withClient { regs := chip.client.regs, outcomes := chip.client.outcomes.tail,
                        log := BusOp.read REG_CONTROL0 :: chip.client.log } := by
  unfold fan5404x_fault_read
  dsimp only
  split_ifs <;> exact fan5404x_read_state chip REG_CONTROL0 0

/-- The status that the handler tests is `STAT_PWM_ENABLED` exactly when the
read succeeds and bits 5:4 of `CONTROL0` are `0b01`. -/
theorem stat_read_pwm_iff (chip : fan5404x_chg) :
    (fan5404x_stat_read chip).1 = STAT_PWM_ENABLED ↔
      (0 ≤ nextOutcome chip.client.outcomes ∧
        chip.client.regs REG_CONTROL0 % 256 / 16 % 4 = 1) := by
  by_cases hr : nextOutcome chip.client.outcomes < 0
  · rw [stat_read_fail chip hr]
    simp only [STAT_PWM_ENABLED]
    constructor
    · intro h
      omega
    · intro h
      omega
  · rw [stat_read_ok chip (not_lt.mp hr)]
    simp only [STAT_PWM_ENABLED]
    constructor
    · intro h
      exact ⟨not_lt.mp hr, by omega⟩
    · intro h
      omega

/-- The handler from the status read on, entered in state `c` with the calls
`acts` already made. -/
theorem stat_handler_core (c : fan5404x_chg) (acts : List irq_action) :
    (if (fan5404x_fault_read (fan5404x_stat_read c).2).2.charging = true ∧
          (fan5404x_stat_read c).1 = STAT_PWM_ENABLED then
        ((start_charging (fan5404x_fault_read (fan5404x_stat_read c).2).2).2,
          acts ++ [irq_action.call_start_charging,
            irq_action.power_supply_changed_batt_psy])
      else ((fan5404x_fault_read (fan5404x_stat_read c).2).2,
          acts ++ [irq_action.power_supply_changed_batt_psy]))
    = (if c.charging = true ∧ 0 ≤ nextOutcome c.client.outcomes ∧
          c.client.regs REG_CONTROL0 % 256 / 16 % 4 = 1 then
        ((start_charging
            (c.withClient { regs := c.client.regs, outcomes := c.client.outcomes.tail.tail,
                            log := BusOp.read REG_CONTROL0 :: BusOp.read REG_CONTROL0 ::
                              c.client.log })).2,
          acts ++ [irq_action.call_start_charging,
            irq_action.power_supply_changed_batt_psy])
      else (c.withClient { regs := c.client.regs, outcomes := c.client.outcomes.tail.tail,
                           log := BusOp.read REG_CONTROL0 :: BusOp.read REG_CONTROL0 ::
                             c.client.log },
          acts ++ [irq_action.power_supply_changed_batt_psy])) := by
  have hst : (fan5404x_fault_read (fan5404x_stat_read c).2).2 =
      c.withClient { regs := c.client.regs, outcomes := c.client.outcomes.tail.tail,
                     log := BusOp.read REG_CONTROL0 :: BusOp.read REG_CONTROL0 ::
                       c.client.log } := by
    rw [fault_read_state, stat_read_state]
    rfl
  have hch : ∀ cl : i2c_client, (c.withClient cl).charging = c.charging := fun _ => rfl
  rw [hst, hch]
  simp only [stat_read_pwm_iff]

/-- The handler in closed form: it calls `start_charging`, on the handle left
by its reads, exactly when `charging` is set and the status read succeeds with
bits 5:4 of `CONTROL0` equal to `0b01`; the calls before it can only be the
notification of `usb_psy`. -/
theorem stat_handler_eq (chip : fan5404x_chg) :
    ∃ acts : List irq_action,
      (∀ a ∈ acts, a = irq_action.power_supply_changed_usb_psy) ∧
      fan5404x_chg_stat_handler chip =
        (if chip.charging = true ∧ 0 ≤ nextOutcome (stat_handler_script chip) ∧
            chip.client.regs REG_CONTROL0 % 256 / 16 % 4 = 1 then
          ((start_charging (stat_handler_after_reads chip)).2,
            acts ++ [irq_action.call_start_charging,
              irq_action.power_supply_changed_batt_psy])
        else (stat_handler_after_reads chip,
            acts ++ [irq_action.power_supply_changed_batt_psy])) := by
  cases hf : chip.factory_mode with
  | false =>
    refine ⟨[], fun a ha => absurd ha (List.not_mem_nil a), ?_⟩
    have h := stat_handler_core chip []
    unfold fan5404x_chg_stat_handler
    simp only [hf, Bool.false_eq_true, if_false]
    rw [h]
    simp only [stat_handler_script, stat_handler_after_reads, hf, Bool.false_eq_true,
      if_false, List.nil_append]
  | true =>
    have hp : ∃ acts : List irq_action,
        (∀ a ∈ acts, a = irq_action.power_supply_changed_usb_psy) ∧
        (if (fan5404x_read chip REG_VBUS_CONTROL 0).1 < 0 then
            ((fan5404x_read chip REG_VBUS_CONTROL 0).2.2, ([] : List irq_action))
          else if (fan5404x_read chip REG_VBUS_CONTROL 0).2.1 &&& VBUS_VBUS_CON = 0 then
            ((fan5404x_read chip REG_VBUS_CONTROL 0).2.2,
              [irq_action.power_supply_changed_usb_psy])
          else ((fan5404x_read chip REG_VBUS_CONTROL 0).2.2, []))
        = (chip.withClient { regs := chip.client.regs,
                             outcomes := chip.client.outcomes.tail,
                             log := BusOp.read REG_VBUS_CONTROL :: chip.client.log },
            acts) := by
      rw [fan5404x_read_state]
      split_ifs
      · exact ⟨[], fun a ha => absurd ha (List.not_mem_nil a), rfl⟩
      · exact ⟨[irq_action.power_supply_changed_usb_psy],
          fun a ha => List.mem_singleton.mp ha, rfl⟩
      · exact ⟨[], fun a ha => absurd ha (List.not_mem_nil a), rfl⟩
    obtain ⟨acts, hacts, hpe⟩ := hp
    refine ⟨acts, hacts, ?_⟩
    have h := stat_handler_core
      (chip.withClient { regs := chip.client.regs, outcomes := chip.client.outcomes.tail,
                         log := BusOp.read REG_VBUS_CONTROL :: chip.client.log }) acts
    unfold fan5404x_chg_stat_handler
    simp only [hf, if_true]
    rw [hpe]
    dsimp only
    rw [h]
    simp only [stat_handler_script, stat_handler_after_reads, hf, if_true,
      fan5404x_chg.withClient, List.singleton_append]

/-- C21: `fan5404x_chg_stat_handler` calls `start_charging` if and only if
`charging` is set and the status read succeeds with bits 5:4 of `CONTROL0`
equal to `0b01`; when it does, the handle it leaves is that of `start_charging`
run after its reads; in every other case, a failed status read included, it
leaves the handle as its reads left it: `charging` and every register as
before, and nothing but reads added to the bus log. -/
theorem stat_handler_restarts_iff (chip : fan5404x_chg) :
    (irq_action.call_start_charging ∈ (fan5404x_chg_stat_handler chip).2 ↔
      (chip.charging = true ∧ 0 ≤ nextOutcome (stat_handler_script chip) ∧
        chip.client.regs REG_CONTROL0 % 256 / 16 % 4 = 1)) ∧
    (irq_action.call_start_charging ∈ (fan5404x_chg_stat_handler chip).2 →
      (fan5404x_chg_stat_handler chip).1
        = (start_charging (stat_handler_after_reads chip)).2) ∧
    (irq_action.call_start_charging ∉ (fan5404x_chg_stat_handler chip).2 →
      (fan5404x_chg_stat_handler chip).1 = stat_handler_after_reads chip ∧
      (fan5404x_chg_stat_handler chip).1.charging = chip.charging ∧
      (fan5404x_chg_stat_handler chip).1.client.regs = chip.client.regs ∧
      (∀ op ∈ (fan5404x_chg_stat_handler chip).1.client.log,
        op ∈ chip.client.log ∨ ∃ r, op = BusOp.read r)) := by
  obtain ⟨acts, hacts, e⟩ := stat_handler_eq chip
  have hno : irq_action.call_start_charging ∉ acts := by
    intro h
    have := hacts _ h
    exact absurd this (by decide)
  have hlog : ∀ op ∈ (stat_handler_after_reads chip).client.log,
      op ∈ chip.client.log ∨ ∃ r, op = BusOp.read r := by
    intro op hop
    simp only [stat_handler_after_reads, fan5404x_chg.withClient, List.mem_cons,
      List.mem_append] at hop
    rcases hop with h | h | h | h
    · exact Or.inr ⟨_, h⟩
    · exact Or.inr ⟨_, h⟩
    · right
      split_ifs at h
      · exact ⟨_, List.mem_singleton.mp h⟩
      · exact absurd h (List.not_mem_nil op)
    · exact Or.inl h
  rw [e]
  by_cases hc : chip.charging = true ∧ 0 ≤ nextOutcome (stat_handler_script chip) ∧
      chip.client.regs REG_CONTROL0 % 256 / 16 % 4 = 1
  · rw [if_pos hc]
    refine ⟨?_, fun _ => rfl, ?_⟩
    · simp [hc]
    · intro h
      exact absurd (by simp) h
  · rw [if_neg hc]
    have hmem : irq_action.call_start_charging ∉
        acts ++ [irq_action.power_supply_changed_batt_psy] := by
      intro h
      rcases List.mem_append.mp h with h1 | h1
      · exact hno h1
      · exact absurd (List.mem_singleton.mp h1) (by decide)
    refine ⟨?_, fun h => absurd h hmem, fun _ => ⟨rfl, rfl, rfl, hlog⟩⟩
    constructor
    · intro h
      exact absurd h hmem
    · intro h
      exact absurd h hc

theorem stat_handler_restarts_iff_witness :
    (fan5404x_chg_stat_handler pwmChip).1
      = (start_charging (stat_handler_after_reads pwmChip)).2 ∧
    ((fan5404x_chg_stat_handler sampleChip).1 = stat_handler_after_reads sampleChip ∧
      (fan5404x_chg_stat_handler sampleChip).1.charging = sampleChip.charging ∧
      (fan5404x_chg_stat_handler sampleChip).1.client.regs = sampleChip.client.regs ∧
      (∀ op ∈ (fan5404x_chg_stat_handler sampleChip).1.client.log,
        op ∈ sampleChip.client.log ∨ ∃ r, op = BusOp.read r)) :=
  ⟨(stat_handler_restarts_iff pwmChip).2.1 (by decide),
    (stat_handler_restarts_iff sampleChip).2.2 (by decide)⟩

/-- In factory mode on a bus without faults a masked write returns 0 with one
read on the bus and the registers untouched. -/
theorem masked_write_factory_healthy (chip : fan5404x_chg) (reg mask val : Nat)
    (hf : chip.factory_mode = true) (hh : ∀ e ∈ chip.client.outcomes, 0 ≤ e) :
    ∃ c : i2c_client,
      fan5404x_masked_write chip reg mask val = (0, chip.withClient c) ∧
      c.regs = chip.client.regs ∧
      c.log = BusOp.read reg :: chip.client.log ∧
      (∀ e ∈ c.outcomes, 0 ≤ e) :=
  ⟨_, masked_write_factory chip reg mask val hf (healthy_next _ hh), rfl, rfl,
    healthy_tail _ hh⟩

/-- C22: in factory mode, on a bus without faults, with an upstream query that
succeeds and a limit that the input-current scan accepts, `start_charging`
returns 0 and sets `charging`, while every register is exactly as it was and
the only transfers it has put on the bus are its seven reads. -/
theorem start_charging_factory_mode (chip : fan5404x_chg)
    (hf : chip.factory_mode = true) (hh : ∀ e ∈ chip.client.outcomes, 0 ≤ e)
    (hrc : 0 ≤ chip.usb_psy.current_max_rc)
    (hacc : 0 ≤ scan_down (fun k => ibuslim_vals.getD k 0)
      (Int.tdiv chip.usb_psy.current_max 1000) (ibuslim_vals.length - 1)) :
    (start_charging chip).1 = 0 ∧
    (start_charging chip).2.charging = true ∧
    (start_charging chip).2.client.regs = chip.client.regs ∧
    (start_charging chip).2.client.log =
      BusOp.read REG_CONTROL1 :: BusOp.read REG_WD_CONTROL :: BusOp.read REG_OREG ::
        BusOp.read REG_VBUS_CONTROL :: BusOp.read REG_IBAT :: BusOp.read REG_CONTROL1 ::
        BusOp.read REG_CONTROL0 :: chip.client.log := by
  obtain ⟨code, hs⟩ : ∃ code : Nat, scan_down (fun k => ibuslim_vals.getD k 0)
      (Int.tdiv chip.usb_psy.current_max 1000) (ibuslim_vals.length - 1) = (code : Int) :=
    ⟨_, (Int.toNat_of_nonneg hacc).symm⟩
  obtain ⟨c0, e0, r0, l0, h0⟩ := masked_write_factory_healthy chip REG_CONTROL0
    CONTROL0_TMR_RST CONTROL0_TMR_RST hf hh
  obtain ⟨c2, e2, r2, l2, h2⟩ := masked_write_factory_healthy (chip.withClient c0)
    REG_CONTROL1 CONTROL1_IBUSLIM (code <<< CONTROL1_IBUSLIM_SHIFT) hf h0
  obtain ⟨c3, e3, r3, l3, h3⟩ := masked_write_factory_healthy (chip.withClient c2) REG_IBAT
    (IBAT_IOCHARGE ||| IBAT_RESET) (10 <<< IBAT_IOCHARGE_SHIFT) hf h2
  obtain ⟨c4, e4, r4, l4, h4⟩ := masked_write_factory_healthy (chip.withClient c3)
    REG_VBUS_CONTROL VBUS_IO_LEVEL 0 hf h3
  obtain ⟨c5, e5, r5, l5, h5⟩ := masked_write_factory_healthy (chip.withClient c4) REG_OREG
    OREG_OREG (42 <<< OREG_OREG_SHIFT) hf h4
  obtain ⟨c6, e6, r6, l6, h6⟩ := masked_write_factory_healthy (chip.withClient c5)
    REG_WD_CONTROL WD_CONTROL_WD_DIS WD_CONTROL_WD_DIS hf h5
  obtain ⟨c7, e7, r7, l7, _⟩ := masked_write_factory_healthy (chip.withClient c6)
    REG_CONTROL1 (CONTROL1_TE ||| CONTROL1_CE_N) 0 hf h6
  have z : ∀ k, ¬ step_failed (k + 2) 0 := fun k h => h rfl
  have s0 : start_step chip 0 = (0, chip.withClient c0) := e0
  have s1 : start_step (chip.withClient c0) 1
      = (chip.usb_psy.current_max_rc, chip.withClient c0) := rfl
  have s2 : start_step (chip.withClient c0) 2 = (0, chip.withClient c2) := by
    show fan5404x_set_ibuslim (chip.withClient c0)
      (Int.tdiv chip.usb_psy.current_max 1000) = _
    rw [set_ibuslim_accepted (chip.withClient c0) _ code hs]
    exact e2
  have s3 : start_step (chip.withClient c2) 3 = (0, chip.withClient c3) := by
    show fan5404x_set_iocharge (chip.withClient c2) 1550 = _
    rw [set_iocharge_accepted (chip.withClient c2) 1550 10 (by decide)]
    exact e3
  have s4 : start_step (chip.withClient c3) 4 = (0, chip.withClient c4) := e4
  have s5 : start_step (chip.withClient c4) 5 = (0, chip.withClient c5) := by
    show fan5404x_set_oreg (chip.withClient c4) 4350 = _
    rw [set_oreg_accepted (chip.withClient c4) 4350 42 (by decide)]
    exact e5
  have s6 : start_step (chip.withClient c5) 6 = (0, chip.withClient c6) := e6
  have s7 : start_step (chip.withClient c6) 7 = (0, chip.withClient c7) := e7
  have e : start_charging chip = (0, { chip.withClient c7 with charging := true }) := by
    rw [start_charging_eq_start_from,
      start_from_step chip _ 0 7 0 s0 (fun h => h rfl),
      start_from_step _ _ 1 6 _ s1 (fun h => absurd hrc (not_le.mpr h)),
      start_from_step _ _ 2 5 0 s2 (z 0),
      start_from_step _ _ 3 4 0 s3 (z 1),
      start_from_step _ _ 4 3 0 s4 (z 2),
      start_from_step _ _ 5 2 0 s5 (z 3),
      start_from_step _ _ 6 1 0 s6 (z 4),
      start_from_step _ _ 7 0 0 s7 (z 5)]
    rfl
  have q7 : c7.regs = c6.regs := r7
  have q6 : c6.regs = c5.regs := r6
  have q5 : c5.regs = c4.regs := r5
  have q4 : c4.regs = c3.regs := r4
  have q3 : c3.regs = c2.regs := r3
  have q2 : c2.regs = c0.regs := r2
  have m7 : c7.log = BusOp.read REG_CONTROL1 :: c6.log := l7
  have m6 : c6.log = BusOp.read REG_WD_CONTROL :: c5.log := l6
  have m5 : c5.log = BusOp.read REG_OREG :: c4.log := l5
  have m4 : c4.log = BusOp.read REG_VBUS_CONTROL :: c3.log := l4
  have m3 : c3.log = BusOp.read REG_IBAT :: c2.log := l3
  have m2 : c2.log = BusOp.read REG_CONTROL1 :: c0.log := l2
  rw [e]
  refine ⟨rfl, rfl, ?_, ?_⟩
  · show c7.regs = chip.client.regs
    rw [q7, q6, q5, q4, q3, q2, r0]
  · show c7.log = _
    rw [m7, m6, m5, m4, m3, m2, l0]

theorem start_charging_factory_mode_witness :
    (start_charging factoryChip).1 = 0 ∧
    (start_charging factoryChip).2.charging = true ∧
    (start_charging factoryChip).2.client.regs = factoryChip.client.regs ∧
    (start_charging factoryChip).2.client.log =
      BusOp.read REG_CONTROL1 :: BusOp.read REG_WD_CONTROL :: BusOp.read REG_OREG ::
        BusOp.read REG_VBUS_CONTROL :: BusOp.read REG_IBAT :: BusOp.read REG_CONTROL1 ::
        BusOp.read REG_CONTROL0 :: factoryChip.client.log :=
  start_charging_factory_mode factoryChip rfl (by intro e he; cases he) (by decide)
    (by decide)

end Fan5404x
